import Mathlib

/-!
Verification development for the ecco9 cognitive-bookkeeping core.

This file shallowly embeds the state-machine and metrics-aggregation layer
of the repository (the wake/rest controller, the interest tracker, the
wisdom aggregator and the orchestration cycle) and proves or refutes the
specified properties about them.

Scalar arithmetic is modelled exactly: rational numbers stand in for the
Python floats wherever the code uses only field operations and min/max,
and real numbers are used for the interest tracker, whose salience and
decay formulas involve the exponential function.  Wall-clock reads
(time dot time) are modelled by passing the current time explicitly.
-/

namespace Ecco9

/-- Keep only the most recent n entries of a list, evicting the oldest
first.  This mirrors the repeated Python idiom of appending and then
slicing with a negative index when the length bound is exceeded. -/
def capList (n : ℕ) (l : List α) : List α :=
  if l.length > n then l.drop (l.length - n) else l

/-! ## The wake/rest controller (autonomous_wake_rest_controller.py)

The controller is a five-state machine over two clamped scalars.  The
numeric thresholds and rates are the constants assigned in the
constructor; they are never mutated by the module, so they are modelled
as plain constants. -/

inductive ConsciousnessState where
  | AWAKE
  | DROWSY
  | RESTING
  | DEEP_REST
  | WAKING
  deriving DecidableEq, Repr

namespace WakeRest

/-- Fatigue accumulation rate per minute of activity. -/
def fatigue_accumulation_rate : ℚ := 1 / 100

/-- Fatigue recovery rate per minute of rest. -/
def fatigue_recovery_rate : ℚ := 5 / 100

/-- Consolidation pressure level that triggers rest. -/
def consolidation_threshold : ℚ := 7 / 10

/-- Fatigue level at which the controller becomes drowsy. -/
def drowsy_threshold : ℚ := 6 / 10

/-- Fatigue level at which the controller initiates rest. -/
def rest_threshold : ℚ := 75 / 100

/-- Fatigue level below which the controller may wake up. -/
def wake_threshold : ℚ := 2 / 10

/-- Mutable state of the AutonomousWakeRestController.  The circadian
fields are never read by the module and are omitted. -/
structure Controller where
  state : ConsciousnessState
  state_entered_time : ℚ
  cognitive_fatigue : ℚ
  consolidation_pressure : ℚ
  activity_duration : ℚ
  rest_duration : ℚ
  total_cycles : ℕ
  optimal_activity_duration : ℚ
  optimal_rest_duration : ℚ
  recent_processing_quality : List ℚ
  recent_coherence_levels : List ℚ
  deriving Repr

/-- The constructor defaults, entered at time t0. -/
def Controller.init (t0 : ℚ) : Controller where
  state := .AWAKE
  state_entered_time := t0
  cognitive_fatigue := 0
  consolidation_pressure := 0
  activity_duration := 0
  rest_duration := 0
  total_cycles := 0
  optimal_activity_duration := 3600
  optimal_rest_duration := 600
  recent_processing_quality := []
  recent_coherence_levels := []

/-- Metric update while awake or drowsy: fatigue accumulates with the
minutes spent in the current state, faster under quality or coherence
deficits, and consolidation pressure grows with new memories; both are
clamped above at 1. -/
def updateAwakeState (m : Controller) (processing_quality coherence_level : ℚ)
    (new_memories : ℕ) (now : ℚ) : Controller :=
  let time_in_state := now - m.state_entered_time
  let minutes_active := time_in_state / 60
  let f0 := m.cognitive_fatigue + fatigue_accumulation_rate * minutes_active
  let f1 := f0 + (1 - processing_quality) * (5 / 1000) * minutes_active
  let f2 := f1 + (1 - coherence_level) * (5 / 1000) * minutes_active
  { m with
    cognitive_fatigue := min 1 f2
    consolidation_pressure := min 1 (m.consolidation_pressure + (new_memories : ℚ) * (1 / 100))
    activity_duration := time_in_state }

/-- Metric update while resting: fatigue decays with the minutes spent
resting, clamped below at 0, and consolidation pressure is halved when a
consolidation occurred. -/
def updateRestingState (m : Controller) (consolidation_occurred : Bool) (now : ℚ) : Controller :=
  let time_in_state := now - m.state_entered_time
  let minutes_resting := time_in_state / 60
  let f := m.cognitive_fatigue - fatigue_recovery_rate * minutes_resting
  { m with
    cognitive_fatigue := max 0 f
    consolidation_pressure :=
      if consolidation_occurred then m.consolidation_pressure * (1 / 2)
      else m.consolidation_pressure
    rest_duration := time_in_state }

/-- The transition table, checked in priority order on every update. -/
def checkStateTransitions (m : Controller) (now : ℚ) : ConsciousnessState :=
  let time_in_state := now - m.state_entered_time
  match m.state with
  | .AWAKE =>
      if m.cognitive_fatigue ≥ drowsy_threshold then .DROWSY
      else if m.consolidation_pressure ≥ consolidation_threshold then .DROWSY
      else .AWAKE
  | .DROWSY =>
      if m.cognitive_fatigue ≥ rest_threshold then .RESTING
      else if m.consolidation_pressure ≥ consolidation_threshold then .RESTING
      else if m.cognitive_fatigue < drowsy_threshold * (8 / 10) then .AWAKE
      else .DROWSY
  | .RESTING =>
      if time_in_state > 120 then .DEEP_REST
      else if m.cognitive_fatigue < wake_threshold ∧ m.consolidation_pressure < 3 / 10 then .WAKING
      else .RESTING
  | .DEEP_REST =>
      if m.cognitive_fatigue < wake_threshold ∧ m.consolidation_pressure < 2 / 10 then .WAKING
      else if time_in_state > m.optimal_rest_duration ∧ m.cognitive_fatigue < 3 / 10 then .WAKING
      else .DEEP_REST
  | .WAKING =>
      if time_in_state > 10 then .AWAKE
      else .WAKING

/-- Exponential moving average update of the learned optimal activity
and rest durations, applied on every transition into WAKING. -/
def updateOptimalDurations (m : Controller) : Controller :=
  let avg_quality := m.recent_processing_quality.sum / (max 1 m.recent_processing_quality.length : ℕ)
  if avg_quality > 7 / 10 then
    { m with
      optimal_activity_duration :=
        (1 - 1 / 10) * m.optimal_activity_duration + (1 / 10) * m.activity_duration
      optimal_rest_duration :=
        (1 - 1 / 10) * m.optimal_rest_duration + (1 / 10) * m.rest_duration }
  else
    { m with
      optimal_activity_duration := m.optimal_activity_duration * (95 / 100)
      optimal_rest_duration := m.optimal_rest_duration * (105 / 100) }

/-- Transition to a new consciousness state: records the new state and
its entry time; entering WAKING additionally completes a cycle and
updates the learned optimal durations. -/
def transitionToState (m : Controller) (new_state : ConsciousnessState) (now : ℚ) : Controller :=
  let m1 := { m with state := new_state, state_entered_time := now }
  if new_state = .WAKING then
    updateOptimalDurations { m1 with total_cycles := m1.total_cycles + 1 }
  else m1

/-- The quality-tracking and metric-accumulation phase of an update:
appends the quality samples (keeping the last 20) and then applies the
state-dependent metric update. -/
def accumPhase (m : Controller) (processing_quality coherence_level : ℚ)
    (new_memories : ℕ) (consolidation_occurred : Bool) (now : ℚ) : Controller :=
  let m1 := { m with
    recent_processing_quality := capList 20 (m.recent_processing_quality ++ [processing_quality])
    recent_coherence_levels := capList 20 (m.recent_coherence_levels ++ [coherence_level]) }
  if m1.state = .AWAKE ∨ m1.state = .DROWSY then
    updateAwakeState m1 processing_quality coherence_level new_memories now
  else if m1.state = .RESTING ∨ m1.state = .DEEP_REST then
    updateRestingState m1 consolidation_occurred now
  else m1

/-- One call to AutonomousWakeRestController.update. -/
def update (m : Controller) (processing_quality coherence_level : ℚ)
    (new_memories : ℕ) (consolidation_occurred : Bool) (now : ℚ) : Controller :=
  let m2 := accumPhase m processing_quality coherence_level new_memories consolidation_occurred now
  let new_state := checkStateTransitions m2 now
  if new_state ≠ m2.state then transitionToState m2 new_state now else m2

/-- AutonomousWakeRestController.force_wake: forced transition to AWAKE
followed by a reset of both pressure scalars. -/
def force_wake (m : Controller) (now : ℚ) : Controller :=
  let m1 := transitionToState m .AWAKE now
  { m1 with cognitive_fatigue := 0, consolidation_pressure := 0 }

/-- The edges of the transition table: which single-step state changes
the controller can ever perform. -/
def tableEdge : ConsciousnessState → ConsciousnessState → Prop
  | .AWAKE, .DROWSY => True
  | .DROWSY, .RESTING => True
  | .DROWSY, .AWAKE => True
  | .RESTING, .DEEP_REST => True
  | .RESTING, .WAKING => True
  | .DEEP_REST, .WAKING => True
  | .WAKING, .AWAKE => True
  | _, _ => False

end WakeRest


/-! ## The wisdom aggregator (wisdom_metrics.py)

Five sub-scores and a composite, computed from append-only insight and
belief-update logs plus a running clamped coherence scalar.  Python
dictionaries (insertion ordered) are modelled as association lists.
The wisdom_history list is written on every add but none of its entries
are ever read by the scoring functions; it is omitted from the model,
together with the unread confidence and source_experiences fields of an
insight. -/

namespace Wisdom

/-- A wisdom insight record; immutable once added. -/
structure WisdomInsight where
  id : String
  content : String
  timestamp : ℚ
  depth_score : ℚ
  breadth_score : ℚ
  applicability_score : ℚ
  coherence_contribution : ℚ
  related_domains : List String
  deriving Repr, DecidableEq

/-- A belief update record; immutable once added. -/
structure BeliefUpdate where
  id : String
  timestamp : ℚ
  prior_belief : String
  updated_belief : String
  evidence : String
  confidence_change : ℚ
  coherence_impact : ℚ
  deriving Repr, DecidableEq

/-- The WisdomMetrics aggregation state. -/
structure Metrics where
  insights : List WisdomInsight
  belief_updates : List BeliefUpdate
  domain_knowledge : List (String × ℚ)
  domain_connections : List ((String × String) × ℕ)
  worldview_coherence_history : List (ℚ × ℚ)
  current_coherence : ℚ
  belief_revision_count : ℕ
  evidence_integration_score : ℚ
  deriving Repr, DecidableEq

/-- Constructor defaults. -/
def Metrics.init : Metrics where
  insights := []
  belief_updates := []
  domain_knowledge := []
  domain_connections := []
  worldview_coherence_history := []
  current_coherence := 1 / 2
  belief_revision_count := 0
  evidence_integration_score := 1 / 2

/-- Clamp a scalar into the unit interval, in the order the code
writes it: max(0.0, min(1.0, v)). -/
def clampUnit (v : ℚ) : ℚ := max 0 (min 1 v)

/-- Add x to the entry of an insertion-ordered float dictionary,
starting from 0 when the key is absent (defaultdict semantics). -/
def bumpQ (l : List (String × ℚ)) (k : String) (x : ℚ) : List (String × ℚ) :=
  match l with
  | [] => [(k, x)]
  | q :: rest => if q.1 = k then (q.1, q.2 + x) :: rest else q :: bumpQ rest k x

/-- Increment the counter of an insertion-ordered int dictionary,
starting from 0 when the key is absent (defaultdict semantics). -/
def bumpN (l : List ((String × String) × ℕ)) (k : String × String) :
    List ((String × String) × ℕ) :=
  match l with
  | [] => [(k, 1)]
  | q :: rest => if q.1 = k then (q.1, q.2 + 1) :: rest else q :: bumpN rest k

/-- The canonical ordered key of a domain pair: tuple(sorted([d1, d2])). -/
def sortedPair (d1 d2 : String) : String × String :=
  if d1 < d2 then (d1, d2) else (d2, d1)

/-- All ordered pairs produced by the nested loop over a domain list:
for each position, the element paired with every later element. -/
def pairKeys : List String → List (String × String)
  | [] => []
  | d :: rest => rest.map (fun d2 => sortedPair d d2) ++ pairKeys rest

/-- The last n entries of a list (the Python negative slice). -/
def lastN (n : ℕ) (l : List α) : List α := l.drop (l.length - n)

/-- Python max over a possibly-empty list, defaulting to 0. -/
def pyMax : List ℚ → ℚ
  | [] => 0
  | [x] => x
  | x :: rest => max x (pyMax rest)

/-- WisdomMetrics.add_insight: appends the insight, accumulates domain
knowledge and domain-pair connections, moves the running coherence by
0.05 times the contribution (clamped to the unit interval) and appends
the new coherence sample. -/
def add_insight (m : Metrics) (i : WisdomInsight) (now : ℚ) : Metrics :=
  let dk := i.related_domains.foldl
    (fun dk d => bumpQ dk d (i.depth_score * (1 / 10))) m.domain_knowledge
  let dc := (pairKeys i.related_domains).foldl (fun dc k => bumpN dc k) m.domain_connections
  let c := clampUnit (m.current_coherence + i.coherence_contribution * (5 / 100))
  { m with
    insights := m.insights ++ [i]
    domain_knowledge := dk
    domain_connections := dc
    current_coherence := c
    worldview_coherence_history := m.worldview_coherence_history ++ [(now, c)] }

/-- WisdomMetrics.add_belief_update: appends the update, bumps the
revision count, moves the evidence-integration EMA toward the absolute
confidence change, moves the running coherence by 0.05 times the impact
(clamped) and appends the new coherence sample. -/
def add_belief_update (m : Metrics) (u : BeliefUpdate) (now : ℚ) : Metrics :=
  let e := (9 / 10) * m.evidence_integration_score + (1 / 10) * |u.confidence_change|
  let c := clampUnit (m.current_coherence + u.coherence_impact * (5 / 100))
  { m with
    belief_updates := m.belief_updates ++ [u]
    belief_revision_count := m.belief_revision_count + 1
    evidence_integration_score := e
    current_coherence := c
    worldview_coherence_history := m.worldview_coherence_history ++ [(now, c)] }

/-- WisdomMetrics.calculate_depth_score. -/
def calculate_depth_score (m : Metrics) : ℚ :=
  if m.insights = [] then 0
  else
    let recent := lastN 20 m.insights
    let avg_depth := (recent.map (fun i => i.depth_score)).sum / (recent.length : ℚ)
    let depth_trend :=
      if m.insights.length > 10 then
        (avg_depth - ((m.insights.take 10).map (fun i => i.depth_score)).sum / 10) * (1 / 2)
      else 0
    let fundamental_count :=
      (m.insights.filter (fun i => i.depth_score > 8 / 10)).length
    let fundamental_bonus := min (2 / 10) ((fundamental_count : ℚ) * (2 / 100))
    min 1 (avg_depth + depth_trend + fundamental_bonus)

/-- WisdomMetrics.calculate_breadth_score. -/
def calculate_breadth_score (m : Metrics) : ℚ :=
  if m.domain_knowledge = [] then 0
  else
    let meaningful := (m.domain_knowledge.filter (fun p => p.2 > 1 / 10)).length
    let domain_diversity := min 1 ((meaningful : ℚ) / 10)
    let connection_score := min 1 ((m.domain_connections.length : ℚ) / 20)
    let total := (m.domain_knowledge.map (fun p => p.2)).sum
    let distribution_score :=
      if total > 0 then
        1 - pyMax (m.domain_knowledge.map (fun p => p.2 / total)) * (1 / 2)
      else 0
    domain_diversity * (4 / 10) + connection_score * (4 / 10) + distribution_score * (2 / 10)

/-- WisdomMetrics.calculate_applicability_score. -/
def calculate_applicability_score (m : Metrics) : ℚ :=
  if m.insights = [] then 0
  else
    let recent := lastN 20 m.insights
    let avg_applicability := (recent.map (fun i => i.applicability_score)).sum / (recent.length : ℚ)
    let high_count := (m.insights.filter (fun i => i.applicability_score > 7 / 10)).length
    let high_ratio := (high_count : ℚ) / (m.insights.length : ℚ)
    avg_applicability * (7 / 10) + high_ratio * (3 / 10)

/-- WisdomMetrics.calculate_coherence_score. -/
def calculate_coherence_score (m : Metrics) : ℚ :=
  if m.worldview_coherence_history = [] then 1 / 2
  else
    let current := m.current_coherence
    let stability :=
      if m.worldview_coherence_history.length > 5 then
        let recent := (lastN 10 m.worldview_coherence_history).map (fun p => p.2)
        let variance := (recent.map (fun c => (c - current) ^ 2)).sum / (recent.length : ℚ)
        max 0 (1 - variance)
      else 1 / 2
    let trend :=
      if m.worldview_coherence_history.length > 10 then
        let early :=
          ((m.worldview_coherence_history.take 5).map (fun p => p.2)).sum / 5
        (current - early) * (1 / 2)
      else 0
    min 1 (current * (6 / 10) + stability * (3 / 10) + trend * (1 / 10))

/-- WisdomMetrics.calculate_adaptability_score. -/
def calculate_adaptability_score (m : Metrics) : ℚ :=
  if m.belief_updates = [] then 1 / 2
  else
    let frequency_score :=
      if m.insights ≠ [] then
        min 1 ((m.belief_updates.length : ℚ) / (m.insights.length : ℚ) * 2)
      else 0
    let integration_quality := m.evidence_integration_score
    let balance_score :=
      if m.belief_updates.length > 5 then
        let recent := lastN 10 m.belief_updates
        let avg_impact := (recent.map (fun u => |u.coherence_impact|)).sum / (recent.length : ℚ)
        1 - min 1 (avg_impact * 2)
      else 1 / 2
    frequency_score * (3 / 10) + integration_quality * (5 / 10) + balance_score * (2 / 10)

/-- The composite_wisdom entry of
WisdomMetrics.calculate_composite_wisdom_score: the weighted blend of
the five sub-scores. -/
def calculate_composite_wisdom_score (m : Metrics) : ℚ :=
  calculate_depth_score m * (25 / 100) +
  calculate_breadth_score m * (20 / 100) +
  calculate_applicability_score m * (20 / 100) +
  calculate_coherence_score m * (25 / 100) +
  calculate_adaptability_score m * (10 / 100)

/-- An external recording call into the aggregator. -/
inductive WEvent where
  | insight (i : WisdomInsight)
  | beliefUpdate (u : BeliefUpdate)
  deriving Repr, DecidableEq

/-- Apply one recording call.  The wall-clock time of the call is taken
to be the timestamp carried by the record itself (the callers construct
records with the current time), and it is never read by any score. -/
def applyEvent (m : Metrics) (e : WEvent) : Metrics :=
  match e with
  | .insight i => add_insight m i i.timestamp
  | .beliefUpdate u => add_belief_update m u u.timestamp

/-- The state reached from a fresh aggregator by a sequence of calls. -/
def applyEvents (evs : List WEvent) : Metrics :=
  evs.foldl applyEvent Metrics.init

/-- The declared field ranges of a recording call: scores in the unit
interval and coherence contribution or impact in the signed unit
interval, with the absolute confidence change also bounded by one. -/
def eventInRange (e : WEvent) : Prop :=
  match e with
  | .insight i =>
      0 ≤ i.depth_score ∧ i.depth_score ≤ 1 ∧
      0 ≤ i.breadth_score ∧ i.breadth_score ≤ 1 ∧
      0 ≤ i.applicability_score ∧ i.applicability_score ≤ 1 ∧
      |i.coherence_contribution| ≤ 1
  | .beliefUpdate u => |u.coherence_impact| ≤ 1 ∧ |u.confidence_change| ≤ 1

instance (e : WEvent) : Decidable (eventInRange e) := by
  unfold eventInRange
  cases e <;> infer_instance

/-- WisdomMetrics._rebuild_derived_metrics: re-derives the domain
connections from the insight log, then resets the running coherence to
0.5 and replays first every insight contribution and then every
belief-update impact, appending the replayed samples to the coherence
history. -/
def rebuildDerivedMetrics (m : Metrics) : Metrics :=
  let dc := m.insights.foldl
    (fun dc i => (pairKeys i.related_domains).foldl (fun dc k => bumpN dc k) dc)
    m.domain_connections
  let afterIns := m.insights.foldl
    (fun (p : ℚ × List (ℚ × ℚ)) i =>
      let c := clampUnit (p.1 + i.coherence_contribution * (5 / 100))
      (c, p.2 ++ [(i.timestamp, c)]))
    ((1 : ℚ) / 2, m.worldview_coherence_history)
  let afterUpd := m.belief_updates.foldl
    (fun (p : ℚ × List (ℚ × ℚ)) u =>
      let c := clampUnit (p.1 + u.coherence_impact * (5 / 100))
      (c, p.2 ++ [(u.timestamp, c)]))
    afterIns
  { m with
    domain_connections := dc
    current_coherence := afterUpd.1
    worldview_coherence_history := afterUpd.2 }

/-- Save-then-load of the aggregator: the file keeps exactly the raw
insight log, the raw belief-update log and the domain-knowledge map;
loading restores those three fields into a fresh instance and rebuilds
every derived field with rebuildDerivedMetrics. -/
def roundTrip (m : Metrics) : Metrics :=
  rebuildDerivedMetrics
    { Metrics.init with
      insights := m.insights
      belief_updates := m.belief_updates
      domain_knowledge := m.domain_knowledge }

/-- The structural invariant maintained by in-range recording calls:
logged records keep their field ranges, domain knowledge is
non-negative, and the running coherence, every coherence sample and the
evidence-integration EMA stay in the unit interval. -/
def MetricsInv (m : Metrics) : Prop :=
  (∀ i ∈ m.insights,
    0 ≤ i.depth_score ∧ i.depth_score ≤ 1 ∧
    0 ≤ i.applicability_score ∧ i.applicability_score ≤ 1) ∧
  (∀ u ∈ m.belief_updates, |u.coherence_impact| ≤ 1) ∧
  (∀ p ∈ m.domain_knowledge, 0 ≤ p.2) ∧
  (∀ c ∈ m.worldview_coherence_history, 0 ≤ c.2 ∧ c.2 ≤ 1) ∧
  (0 ≤ m.current_coherence ∧ m.current_coherence ≤ 1) ∧
  (0 ≤ m.evidence_integration_score ∧ m.evidence_integration_score ≤ 1)


/-- A plain insight used by concrete evaluations: given depth and
coherence contribution, no domains, zero applicability. -/
def plainInsight (t d c : ℚ) : WEvent :=
  .insight
    { id := "", content := "", timestamp := t, depth_score := d, breadth_score := 0,
      applicability_score := 0, coherence_contribution := c, related_domains := [] }

/-- A plain belief update used by concrete evaluations. -/
def plainUpdate (t cc ci : ℚ) : WEvent :=
  .beliefUpdate
    { id := "", timestamp := t, prior_belief := "", updated_belief := "", evidence := "",
      confidence_change := cc, coherence_impact := ci }

/-- A 36-call sequence with every field inside its declared range: ten
insights of depth 0.8 (five raising coherence, five lowering it),
twenty insights of depth 0, and six belief updates of impact -1. -/
def cexEvents : List WEvent :=
  [plainInsight 1 (8 / 10) 1, plainInsight 2 (8 / 10) 1, plainInsight 3 (8 / 10) 1,
   plainInsight 4 (8 / 10) 1, plainInsight 5 (8 / 10) 1,
   plainInsight 6 (8 / 10) (-1), plainInsight 7 (8 / 10) (-1), plainInsight 8 (8 / 10) (-1),
   plainInsight 9 (8 / 10) (-1), plainInsight 10 (8 / 10) (-1),
   plainInsight 11 0 0, plainInsight 12 0 0, plainInsight 13 0 0, plainInsight 14 0 0,
   plainInsight 15 0 0, plainInsight 16 0 0, plainInsight 17 0 0, plainInsight 18 0 0,
   plainInsight 19 0 0, plainInsight 20 0 0, plainInsight 21 0 0, plainInsight 22 0 0,
   plainInsight 23 0 0, plainInsight 24 0 0, plainInsight 25 0 0, plainInsight 26 0 0,
   plainInsight 27 0 (-1), plainInsight 28 0 (-1), plainInsight 29 0 (-1),
   plainInsight 30 0 (-1),
   plainUpdate 31 0 (-1), plainUpdate 32 0 (-1), plainUpdate 33 0 (-1),
   plainUpdate 34 0 (-1), plainUpdate 35 0 (-1), plainUpdate 36 0 (-1)]

end Wisdom


/-! ## The interest tracker (echo_interest.py)

Per-topic engagement records with a salience map, topic clustering and
an active-interest list.  The salience formula applies the exponential
function and the decay formula a real power, so this component is
modelled over the real numbers; list sorting on real salience keys uses
classical decidability.  Python dictionaries are insertion-ordered
association lists and Python sets are lists without duplicates. -/

namespace Interest

/-- Engagement with a single topic. -/
structure TopicEngagement where
  topic : String
  first_encounter : ℝ
  last_encounter : ℝ
  encounter_count : ℕ
  total_duration : ℝ
  emotional_valence : ℝ
  curiosity_level : ℝ
  learning_progress : ℝ
  satisfaction : ℝ
  related_topics : List String

/-- An autonomous exploration goal. -/
structure ExplorationGoal where
  id : String
  topic : String
  created : ℝ
  priority : ℝ
  curiosity_driver : ℝ
  utility_driver : ℝ
  progress : ℝ
  target_depth : ℝ
  completed : Bool

/-- The EchoInterest tracker state. -/
structure Tracker where
  topic_engagements : List (String × TopicEngagement)
  exploration_goals : List ExplorationGoal
  salience_map : List (String × ℝ)
  topic_clusters : List (String × List String)
  active_interests : List String

/-- Constructor defaults. -/
def Tracker.init : Tracker where
  topic_engagements := []
  exploration_goals := []
  salience_map := []
  topic_clusters := []
  active_interests := []

/-- Interest decay applied per day since the last encounter. -/
noncomputable def interest_decay_rate : ℝ := 95 / 100

/-- Curiosity recovery applied per day since the last encounter. -/
noncomputable def curiosity_recovery_rate : ℝ := 1 / 10

/-- Dictionary lookup in an insertion-ordered association list. -/
def lookup (l : List (String × α)) (k : String) : Option α :=
  (l.find? (fun p => p.1 == k)).map (fun p => p.2)

/-- Dictionary assignment: replace the value in place when the key
exists, append otherwise. -/
def setKey (l : List (String × α)) (k : String) (v : α) : List (String × α) :=
  match l with
  | [] => [(k, v)]
  | q :: rest => if q.1 = k then (k, v) :: rest else q :: setKey rest k v

/-- Python set add: append the element when it is not yet present. -/
def addIfMissing (l : List String) (x : String) : List String :=
  if x ∈ l then l else l ++ [x]

/-- Python set update: add every element of the second set. -/
def unionSet (a b : List String) : List String := b.foldl addIfMissing a

/-- The salience of an engagement as computed by
EchoInterest._update_salience at a given current time. -/
noncomputable def salienceOf (e : TopicEngagement) (now : ℝ) : ℝ :=
  let time_since_last := now - e.last_encounter
  let recency := Real.exp (-time_since_last / 86400)
  let frequency := min 1 ((e.encounter_count : ℝ) / 10)
  let emotional_factor := (e.emotional_valence + 1) / 2
  let curiosity_factor := e.curiosity_level
  let learning_potential := 1 - |e.learning_progress - 1 / 2| * 2
  recency * (3 / 10) + frequency * (2 / 10) + emotional_factor * (2 / 10) +
    curiosity_factor * (2 / 10) + learning_potential * (1 / 10)

/-- EchoInterest._update_salience: recompute and store the salience of
one topic; a no-op for untracked topics. -/
noncomputable def updateSalience (s : Tracker) (topic : String) (now : ℝ) : Tracker :=
  match lookup s.topic_engagements topic with
  | none => s
  | some e => { s with salience_map := setKey s.salience_map topic (salienceOf e now) }

open scoped Classical in
/-- Stable descending insertion for the salience sort: an element moves
ahead only of strictly less salient ones, which matches the stable
Python sort with reverse ordering. -/
noncomputable def insertDesc (x : String × ℝ) : List (String × ℝ) → List (String × ℝ)
  | [] => [x]
  | y :: ys => if x.2 ≥ y.2 then x :: y :: ys else y :: insertDesc x ys

/-- Stable descending sort by salience. -/
noncomputable def sortDesc : List (String × ℝ) → List (String × ℝ)
  | [] => []
  | x :: xs => insertDesc x (sortDesc xs)

open scoped Classical in
/-- EchoInterest._update_active_interests: the top five topics by
salience, keeping those with salience above 0.3. -/
noncomputable def updateActiveInterests (s : Tracker) : Tracker :=
  let sorted_topics := sortDesc s.salience_map
  { s with active_interests :=
      ((sorted_topics.take 5).filter (fun p => p.2 > 3 / 10)).map (fun p => p.1) }

/-- EchoInterest.record_topic_encounter. -/
noncomputable def record_topic_encounter (s : Tracker) (topic : String)
    (duration emotional_valence : ℝ) (learning_occurred : Bool) (satisfaction : ℝ)
    (now : ℝ) : Tracker :=
  let s1 :=
    match lookup s.topic_engagements topic with
    | none =>
        let engagement : TopicEngagement :=
          { topic := topic
            first_encounter := now
            last_encounter := now
            encounter_count := 1
            total_duration := duration
            emotional_valence := emotional_valence
            curiosity_level := 7 / 10
            learning_progress := if learning_occurred then 1 / 10 else 0
            satisfaction := satisfaction
            related_topics := [] }
        { s with topic_engagements := setKey s.topic_engagements topic engagement }
    | some e =>
        let curiosity_change :=
          (satisfaction - 1 / 2) * (1 / 10) +
            (if learning_occurred then (1 : ℝ) / 10 else -(5 / 100))
        let engagement : TopicEngagement :=
          { e with
            last_encounter := now
            encounter_count := e.encounter_count + 1
            total_duration := e.total_duration + duration
            emotional_valence := (7 / 10) * e.emotional_valence + (3 / 10) * emotional_valence
            learning_progress :=
              if learning_occurred then min 1 (e.learning_progress + 1 / 10)
              else e.learning_progress
            satisfaction := (7 / 10) * e.satisfaction + (3 / 10) * satisfaction
            curiosity_level := max 0 (min 1 (e.curiosity_level + curiosity_change)) }
        { s with topic_engagements := setKey s.topic_engagements topic engagement }
  updateActiveInterests (updateSalience s1 topic now)

/-- The id of the last cluster containing a topic, scanning all
clusters the way the Python loop does. -/
def findCluster (cs : List (String × List String)) (t : String) : Option String :=
  cs.foldl (fun acc c => if t ∈ c.2 then some c.1 else acc) none

/-- Replace one cluster's topic set by a function of it. -/
def mapCluster (cs : List (String × List String)) (id : String)
    (f : List String → List String) : List (String × List String) :=
  cs.map (fun c => if c.1 = id then (c.1, f c.2) else c)

/-- The topic set of a cluster (empty when absent). -/
def getCluster (cs : List (String × List String)) (id : String) : List String :=
  ((cs.find? (fun c => c.1 == id)).map (fun c => c.2)).getD []

/-- Delete a cluster. -/
def delCluster (cs : List (String × List String)) (id : String) :
    List (String × List String) :=
  cs.filter (fun c => !(c.1 == id))

/-- Dictionary assignment for string-keyed cluster maps. -/
def setCluster (cs : List (String × List String)) (id : String) (v : List String) :
    List (String × List String) :=
  match cs with
  | [] => [(id, v)]
  | q :: rest => if q.1 = id then (id, v) :: rest else q :: setCluster rest id v

/-- EchoInterest.add_topic_relation: records the symmetric relation on
both tracked engagements and then updates the clustering: a fresh
cluster named after the current cluster count when neither topic is
clustered, insertion into the existing cluster when exactly one is, and
a merge (union into the first cluster, deletion of the second) when the
two clusters differ. -/
def add_topic_relation (s : Tracker) (topic1 topic2 : String) : Tracker :=
  let s :=
    match lookup s.topic_engagements topic1 with
    | some e =>
        let e1 := { e with related_topics := addIfMissing e.related_topics topic2 }
        { s with topic_engagements := setKey s.topic_engagements topic1 e1 }
    | none => s
  let s :=
    match lookup s.topic_engagements topic2 with
    | some e =>
        let e2 := { e with related_topics := addIfMissing e.related_topics topic1 }
        { s with topic_engagements := setKey s.topic_engagements topic2 e2 }
    | none => s
  let cluster1 := findCluster s.topic_clusters topic1
  let cluster2 := findCluster s.topic_clusters topic2
  match cluster1, cluster2 with
  | none, none =>
      let cluster_id := "cluster_" ++ toString s.topic_clusters.length
      let fresh := if topic1 = topic2 then [topic1] else [topic1, topic2]
      { s with topic_clusters := setCluster s.topic_clusters cluster_id fresh }
  | some c1, none =>
      let cs := mapCluster s.topic_clusters c1 (fun ts => addIfMissing ts topic2)
      { s with topic_clusters := cs }
  | none, some c2 =>
      let cs := mapCluster s.topic_clusters c2 (fun ts => addIfMissing ts topic1)
      { s with topic_clusters := cs }
  | some c1, some c2 =>
      if c1 ≠ c2 then
        let merged := mapCluster s.topic_clusters c1
          (fun ts => unionSet ts (getCluster s.topic_clusters c2))
        { s with topic_clusters := delCluster merged c2 }
      else s

/-- A sequence of add_topic_relation calls. -/
def applyRelations (s : Tracker) (rels : List (String × String)) : Tracker :=
  rels.foldl (fun s r => add_topic_relation s r.1 r.2) s

/-- The stored salience of a topic, defaulting to 0. -/
def salienceGet (s : Tracker) (topic : String) : ℝ :=
  (lookup s.salience_map topic).getD 0

/-- The related-topic set the code reads for an active topic: the
engagement record's set, or the empty default engagement's set when the
topic is untracked. -/
def relatedGet (s : Tracker) (topic : String) : List String :=
  match lookup s.topic_engagements topic with
  | some e => e.related_topics
  | none => []

/-- EchoInterest.should_join_discussion, translated clause by clause:
the four early returns of the code become a disjunction (the unused
participants argument is dropped). -/
def should_join_discussion (s : Tracker) (topic : String) : Prop :=
  topic ∈ s.active_interests ∨
  salienceGet s topic > 2 / 5 ∨
  (∃ a ∈ s.active_interests, topic ∈ relatedGet s a) ∨
  (∃ c ∈ s.topic_clusters, topic ∈ c.2 ∧ ∃ a ∈ s.active_interests, a ∈ c.2)

/-- Modelled from the spec: the decision rule as the specification
words it, with the related check reading an actual engagement record. -/
def spec_should_join (s : Tracker) (topic : String) : Prop :=
  topic ∈ s.active_interests ∨
  salienceGet s topic > 2 / 5 ∨
  (∃ a ∈ s.active_interests, ∃ e, lookup s.topic_engagements a = some e ∧
    topic ∈ e.related_topics) ∨
  (∃ c ∈ s.topic_clusters, topic ∈ c.2 ∧ ∃ a ∈ s.active_interests, a ∈ c.2)

/-- The salience formula as the specification words it. -/
noncomputable def specSalience (e : TopicEngagement) (now : ℝ) : ℝ :=
  (3 / 10) * Real.exp (-(now - e.last_encounter) / 86400) +
  (2 / 10) * min 1 ((e.encounter_count : ℝ) / 10) +
  (2 / 10) * ((e.emotional_valence + 1) / 2) +
  (2 / 10) * e.curiosity_level +
  (1 / 10) * (1 - 2 * |e.learning_progress - 1 / 2|)

/-- The curiosity decay-and-recover step of EchoInterest.decay_interests
for one engagement. -/
noncomputable def decayEngagement (e : TopicEngagement) (now : ℝ) : TopicEngagement :=
  let days_since := (now - e.last_encounter) / 86400
  let decay_factor := interest_decay_rate ^ days_since
  let decayed := e.curiosity_level * decay_factor
  { e with curiosity_level := min 1 (decayed + curiosity_recovery_rate * days_since) }

/-- EchoInterest.decay_interests: decay every engagement's curiosity,
recompute every topic's salience and refresh the active interests.  The
Python loop interleaves the mutation and the salience update per topic;
since a topic's salience reads only that topic's already-mutated
engagement, decaying all engagements first yields the same state. -/
noncomputable def decay_interests (s : Tracker) (now : ℝ) : Tracker :=
  let s1 := { s with topic_engagements :=
    s.topic_engagements.map (fun p => (p.1, decayEngagement p.2 now)) }
  let s2 := s.topic_engagements.foldl (fun st p => updateSalience st p.1 now) s1
  updateActiveInterests s2

/-- Save-then-load of the tracker: the file keeps the engagement map,
the goal list, the salience map and the clusters verbatim; loading
restores them into a fresh instance and rebuilds the active-interest
list. -/
noncomputable def interestRoundTrip (s : Tracker) : Tracker :=
  updateActiveInterests
    { Tracker.init with
      topic_engagements := s.topic_engagements
      exploration_goals := s.exploration_goals
      salience_map := s.salience_map
      topic_clusters := s.topic_clusters }

end Interest


/-! ## The orchestrator (unified_orchestrator.py)

The seven-phase cycle over an orchestration context, with the context
history capped at the most recent 100 entries.  The model wires in the
optional wake/rest controller; the other subsystems (EchoBeats,
EchoDream, emotion, theory of mind, interest tracker, wisdom metrics)
are external collaborators treated as absent, so their phase actions
reduce to phase tagging.  Wall-clock performance lists (cycle_times,
phase_times) measure real durations and are not modelled. -/

/-- The string value of a consciousness state (the Python enum value). -/
def ConsciousnessState.value : ConsciousnessState → String
  | .AWAKE => "awake"
  | .DROWSY => "drowsy"
  | .RESTING => "resting"
  | .DEEP_REST => "deep_rest"
  | .WAKING => "waking"

namespace Orchestrator

/-- Phases of the orchestration cycle. -/
inductive OrchestrationPhase where
  | PERCEPTION
  | COGNITION
  | EMOTION
  | SOCIAL
  | LEARNING
  | CONSOLIDATION
  | INTEGRATION
  deriving DecidableEq, Repr

/-- Values stored in the open-ended context maps. -/
inductive CtxValue where
  | str (s : String)
  | num (q : ℚ)
  | nat (n : ℕ)
  | flag (b : Bool)
  deriving DecidableEq, Repr

/-- The per-tick orchestration context. -/
structure OrchestrationContext where
  timestamp : ℚ
  phase : OrchestrationPhase
  inputs : List (String × CtxValue)
  outputs : List (String × CtxValue)
  metadata : List (String × CtxValue)
  deriving DecidableEq, Repr

/-- Dictionary assignment into a context map. -/
def setCtx (l : List (String × CtxValue)) (k : String) (v : CtxValue) :
    List (String × CtxValue) :=
  match l with
  | [] => [(k, v)]
  | q :: rest => if q.1 = k then (k, v) :: rest else q :: setCtx rest k v

/-- The orchestrator state, in the configuration where only the
wake/rest controller is wired in. -/
structure Orchestrator where
  wake_rest_controller : Option WakeRest.Controller
  running : Bool
  cycle_count : ℕ
  current_phase : OrchestrationPhase
  context_history : List OrchestrationContext
  current_context : Option OrchestrationContext
  deriving Repr

/-- Constructor defaults. -/
def Orchestrator.init (w : Option WakeRest.Controller) : Orchestrator where
  wake_rest_controller := w
  running := false
  cycle_count := 0
  current_phase := .PERCEPTION
  context_history := []
  current_context := none

/-- UnifiedOrchestrator._check_wake_rest_state: update the wake/rest
controller with the default quality and coherence inputs (no wisdom
aggregator supplies a live coherence score and no memory system counts
new memories); absent the controller this is a no-op, and without an
EchoDream subsystem there is nothing to start or stop. -/
def checkWakeRestState (s : Orchestrator) (now : ℚ) : Orchestrator :=
  match s.wake_rest_controller with
  | none => s
  | some w =>
      let w2 := WakeRest.update w (8 / 10) (8 / 10) 0 false now
      { s with wake_rest_controller := some w2 }

/-- Perception phase: snapshot the wake/rest state into the inputs. -/
def phasePerception (s : Orchestrator) (ctx : OrchestrationContext) :
    OrchestrationContext :=
  let ctx := { ctx with phase := .PERCEPTION }
  match s.wake_rest_controller with
  | none => ctx
  | some w =>
      let i1 := setCtx ctx.inputs "wake_rest_state" (.str w.state.value)
      let i2 := setCtx i1 "cognitive_fatigue" (.num w.cognitive_fatigue)
      { ctx with inputs := i2 }

/-- Cognition phase: without an EchoBeats subsystem, only the phase tag
is set. -/
def phaseCognition (ctx : OrchestrationContext) : OrchestrationContext :=
  { ctx with phase := .COGNITION }

/-- Emotion phase: without an emotion subsystem, only the phase tag is
set. -/
def phaseEmotion (ctx : OrchestrationContext) : OrchestrationContext :=
  { ctx with phase := .EMOTION }

/-- Social phase: without a theory-of-mind subsystem, only the phase
tag is set. -/
def phaseSocial (ctx : OrchestrationContext) : OrchestrationContext :=
  { ctx with phase := .SOCIAL }

/-- Learning phase: without an interest tracker or wisdom aggregator,
only the phase tag is set. -/
def phaseLearning (ctx : OrchestrationContext) : OrchestrationContext :=
  { ctx with phase := .LEARNING }

/-- Consolidation phase: without an EchoDream subsystem, only the phase
tag is set. -/
def phaseConsolidation (ctx : OrchestrationContext) : OrchestrationContext :=
  { ctx with phase := .CONSOLIDATION }

/-- Integration phase: stamp the completion metadata. -/
def phaseIntegration (ctx : OrchestrationContext) (now : ℚ) : OrchestrationContext :=
  let ctx := { ctx with phase := .INTEGRATION }
  let m1 := setCtx ctx.metadata "integration_complete" (.flag true)
  let m2 := setCtx m1 "cycle_complete_time" (.num now)
  { ctx with metadata := m2 }

/-- The context produced by one pass through the seven phases. -/
def buildContext (s : Orchestrator) (now : ℚ) : OrchestrationContext :=
  let ctx0 : OrchestrationContext :=
    { timestamp := now
      phase := .PERCEPTION
      inputs := []
      outputs := []
      metadata := [("cycle", .nat s.cycle_count)] }
  phaseIntegration
    (phaseConsolidation (phaseLearning (phaseSocial (phaseEmotion
      (phaseCognition (phasePerception s ctx0)))))) now

/-- UnifiedOrchestrator._run_orchestration_cycle: run the seven phases
and append the produced context to the history, keeping the most recent
100 entries. -/
def runOrchestrationCycle (s : Orchestrator) (now : ℚ) : Orchestrator :=
  let ctx := buildContext s now
  { s with
    current_context := some ctx
    context_history := capList 100 (s.context_history ++ [ctx]) }

/-- One iteration of UnifiedOrchestrator._orchestration_loop: check the
wake/rest state, run the cycle, and count the completed cycle. -/
def orchestrationStep (s : Orchestrator) (now : ℚ) : Orchestrator :=
  let s1 := checkWakeRestState s now
  let s2 := runOrchestrationCycle s1 now
  { s2 with cycle_count := s2.cycle_count + 1 }

/-- A run of the loop over a list of tick times. -/
def runSteps (s : Orchestrator) (times : List ℚ) : Orchestrator :=
  times.foldl orchestrationStep s

end Orchestrator


namespace Interest

/-- A concrete engagement last encountered at time 0, used by concrete
instantiations. -/
noncomputable def sampleEngagement : TopicEngagement where
  topic := "t"
  first_encounter := 0
  last_encounter := 0
  encounter_count := 1
  total_duration := 0
  emotional_valence := 0
  curiosity_level := 7 / 10
  learning_progress := 0
  satisfaction := 1 / 2
  related_topics := []

/-- A tracker holding the sample engagement. -/
noncomputable def sampleTracker : Tracker :=
  { Tracker.init with topic_engagements := [("t", sampleEngagement)] }

/-- A tracker with one active interest of salience one half, used by
concrete instantiations. -/
noncomputable def discussionTracker : Tracker :=
  { Tracker.init with
    salience_map := [("x", (1 : ℝ) / 2)]
    active_interests := ["x"] }

end Interest

/-! ## Theorems -/

theorem capList_length_le (n : ℕ) (l : List α) (h : l.length ≤ n + 1) :
    (capList n l).length ≤ n := by
  unfold capList
  split
  · simp only [List.length_drop]
    omega
  · omega

theorem capList_eq_drop (n : ℕ) (l : List α) :
    capList n l = l.drop (l.length - n) := by
  unfold capList
  split
  · rfl
  · have : l.length - n = 0 := by omega
    rw [this, List.drop_zero]

theorem capList_suffix (n : ℕ) (l : List α) : (capList n l) <:+ l := by
  rw [capList_eq_drop]
  exact List.drop_suffix _ l


namespace WakeRest

theorem accumPhase_state (m : Controller) (pq cl : ℚ) (nm : ℕ) (co : Bool) (now : ℚ) :
    (accumPhase m pq cl nm co now).state = m.state := by
  unfold accumPhase updateAwakeState updateRestingState
  cases m.state <;> simp

theorem checkStateTransitions_edge (m : Controller) (now : ℚ) :
    checkStateTransitions m now = m.state ∨ tableEdge m.state (checkStateTransitions m now) := by
  unfold checkStateTransitions
  cases m.state <;> simp only <;> split_ifs <;> simp [tableEdge]

theorem transitionToState_state (m : Controller) (s : ConsciousnessState) (now : ℚ) :
    (transitionToState m s now).state = s := by
  unfold transitionToState updateOptimalDurations
  split <;> [skip; rfl]
  dsimp only
  split <;> rfl

theorem transitionToState_fatigue (m : Controller) (s : ConsciousnessState) (now : ℚ) :
    (transitionToState m s now).cognitive_fatigue = m.cognitive_fatigue := by
  unfold transitionToState updateOptimalDurations
  split <;> [skip; rfl]
  dsimp only
  split <;> rfl

theorem transitionToState_pressure (m : Controller) (s : ConsciousnessState) (now : ℚ) :
    (transitionToState m s now).consolidation_pressure = m.consolidation_pressure := by
  unfold transitionToState updateOptimalDurations
  split <;> [skip; rfl]
  dsimp only
  split <;> rfl

theorem update_state_eq (m : Controller) (pq cl : ℚ) (nm : ℕ) (co : Bool) (now : ℚ) :
    (update m pq cl nm co now).state =
      checkStateTransitions (accumPhase m pq cl nm co now) now := by
  unfold update
  dsimp only
  split
  · exact transitionToState_state ..
  · next h =>
    push_neg at h
    exact h.symm

theorem update_fatigue_eq (m : Controller) (pq cl : ℚ) (nm : ℕ) (co : Bool) (now : ℚ) :
    (update m pq cl nm co now).cognitive_fatigue =
      (accumPhase m pq cl nm co now).cognitive_fatigue := by
  unfold update
  dsimp only
  split
  · exact transitionToState_fatigue ..
  · rfl

theorem update_pressure_eq (m : Controller) (pq cl : ℚ) (nm : ℕ) (co : Bool) (now : ℚ) :
    (update m pq cl nm co now).consolidation_pressure =
      (accumPhase m pq cl nm co now).consolidation_pressure := by
  unfold update
  dsimp only
  split
  · exact transitionToState_pressure ..
  · rfl

end WakeRest


open WakeRest in
/-- C1: a single update call transitions according to the table in its
priority order, on the scalar values obtained after the accumulation
step: from AWAKE to DROWSY when fatigue is at least 0.6 or pressure at
least 0.7; from DROWSY to RESTING when fatigue is at least 0.75 or
pressure at least 0.7; from DROWSY back to AWAKE when neither of those
fires and fatigue is below 0.8 times 0.6; and at most one table edge is
traversed per call. -/
theorem update_follows_transition_table (m : Controller) (pq cl : ℚ) (nm : ℕ)
    (co : Bool) (now : ℚ) :
    (m.state = .AWAKE →
      (drowsy_threshold ≤ (accumPhase m pq cl nm co now).cognitive_fatigue ∨
        consolidation_threshold ≤ (accumPhase m pq cl nm co now).consolidation_pressure) →
      (update m pq cl nm co now).state = .DROWSY) ∧
    (m.state = .DROWSY →
      (rest_threshold ≤ (accumPhase m pq cl nm co now).cognitive_fatigue ∨
        consolidation_threshold ≤ (accumPhase m pq cl nm co now).consolidation_pressure) →
      (update m pq cl nm co now).state = .RESTING) ∧
    (m.state = .DROWSY →
      (accumPhase m pq cl nm co now).consolidation_pressure < consolidation_threshold →
      (accumPhase m pq cl nm co now).cognitive_fatigue < drowsy_threshold * (8 / 10) →
      (update m pq cl nm co now).state = .AWAKE) ∧
    ((update m pq cl nm co now).state = m.state ∨
      tableEdge m.state (update m pq cl nm co now).state) := by
  have hstate := accumPhase_state m pq cl nm co now
  have hupd := update_state_eq m pq cl nm co now
  set a := accumPhase m pq cl nm co now with ha
  refine ⟨?_, ?_, ?_, ?_⟩
  · intro hA hcond
    rw [hupd]
    unfold checkStateTransitions
    rw [hstate, hA]
    simp only [ge_iff_le]
    rcases hcond with h | h
    · rw [if_pos h]
    · split_ifs <;> rfl
  · intro hD hcond
    rw [hupd]
    unfold checkStateTransitions
    rw [hstate, hD]
    simp only [ge_iff_le]
    rcases hcond with h | h
    · rw [if_pos h]
    · split_ifs <;> rfl
  · intro hD hpress hfat
    rw [hupd]
    unfold checkStateTransitions
    rw [hstate, hD]
    simp only [ge_iff_le]
    have h1 : ¬ rest_threshold ≤ a.cognitive_fatigue := by
      unfold rest_threshold
      unfold drowsy_threshold at hfat
      intro hcontra
      linarith
    have h2 : ¬ consolidation_threshold ≤ a.consolidation_pressure := by
      intro hcontra
      linarith
    rw [if_neg h1, if_neg h2, if_pos hfat]
  · rw [hupd]
    have hedge := checkStateTransitions_edge a now
    rw [hstate] at hedge
    exact hedge

open WakeRest in
/-- C1 witness: three concrete states exercising the AWAKE to DROWSY,
DROWSY to RESTING and DROWSY to AWAKE rows of the table. -/
theorem update_follows_transition_table_witness :
    (update { Controller.init 0 with cognitive_fatigue := 7 / 10 }
        (8 / 10) (8 / 10) 0 false 0).state = .DROWSY ∧
    (update { Controller.init 0 with state := .DROWSY, cognitive_fatigue := 8 / 10 }
        (8 / 10) (8 / 10) 0 false 0).state = .RESTING ∧
    (update { Controller.init 0 with state := .DROWSY, cognitive_fatigue := 3 / 10 }
        (8 / 10) (8 / 10) 0 false 0).state = .AWAKE := by
  refine ⟨?_, ?_, ?_⟩
  · refine (update_follows_transition_table _ _ _ _ _ _).1 rfl (Or.inl ?_)
    norm_num [accumPhase, updateAwakeState, Controller.init, capList,
      drowsy_threshold, fatigue_accumulation_rate]
  · refine (update_follows_transition_table _ _ _ _ _ _).2.1 rfl (Or.inl ?_)
    norm_num [accumPhase, updateAwakeState, Controller.init, capList,
      rest_threshold, fatigue_accumulation_rate]
  · refine (update_follows_transition_table _ _ _ _ _ _).2.2.1 rfl ?_ ?_
    · norm_num [accumPhase, updateAwakeState, Controller.init, capList,
        consolidation_threshold, fatigue_accumulation_rate]
    · norm_num [accumPhase, updateAwakeState, Controller.init, capList,
        drowsy_threshold, fatigue_accumulation_rate]

open WakeRest in
/-- C2: one update call, with quality and coherence inputs in the unit
interval, a non-negative memory count and non-negative elapsed time,
keeps both cognitive fatigue and consolidation pressure inside the unit
interval. -/
theorem update_preserves_unit_interval (m : Controller) (pq cl : ℚ) (nm : ℕ)
    (co : Bool) (now : ℚ)
    (hf0 : 0 ≤ m.cognitive_fatigue) (hf1 : m.cognitive_fatigue ≤ 1)
    (hp0 : 0 ≤ m.consolidation_pressure) (hp1 : m.consolidation_pressure ≤ 1)
    (hq0 : 0 ≤ pq) (hq1 : pq ≤ 1) (hc0 : 0 ≤ cl) (hc1 : cl ≤ 1)
    (ht : m.state_entered_time ≤ now) :
    0 ≤ (update m pq cl nm co now).cognitive_fatigue ∧
    (update m pq cl nm co now).cognitive_fatigue ≤ 1 ∧
    0 ≤ (update m pq cl nm co now).consolidation_pressure ∧
    (update m pq cl nm co now).consolidation_pressure ≤ 1 := by
  rw [update_fatigue_eq, update_pressure_eq]
  unfold accumPhase
  dsimp only
  have hmin : (0 : ℚ) ≤ (now - m.state_entered_time) / 60 := by
    apply div_nonneg _ (by norm_num)
    linarith
  split_ifs
  · unfold updateAwakeState
    dsimp only
    refine ⟨?_, ?_, ?_, ?_⟩
    · apply le_min (by norm_num)
      have h1 : (0 : ℚ) ≤ fatigue_accumulation_rate * ((now - m.state_entered_time) / 60) := by
        apply mul_nonneg (by norm_num [fatigue_accumulation_rate]) hmin
      have h2 : (0 : ℚ) ≤ (1 - pq) * (5 / 1000) * ((now - m.state_entered_time) / 60) := by
        apply mul_nonneg (mul_nonneg (by linarith) (by norm_num)) hmin
      have h3 : (0 : ℚ) ≤ (1 - cl) * (5 / 1000) * ((now - m.state_entered_time) / 60) := by
        apply mul_nonneg (mul_nonneg (by linarith) (by norm_num)) hmin
      linarith
    · exact min_le_left _ _
    · apply le_min (by norm_num)
      have : (0 : ℚ) ≤ (nm : ℚ) * (1 / 100) := by positivity
      linarith
    · exact min_le_left _ _
  · unfold updateRestingState
    dsimp only
    have hrec : (0 : ℚ) ≤ fatigue_recovery_rate * ((now - m.state_entered_time) / 60) := by
      apply mul_nonneg (by norm_num [fatigue_recovery_rate]) hmin
    refine ⟨le_max_left _ _, ?_, ?_, ?_⟩
    · apply max_le (by norm_num)
      linarith
    · split_ifs <;> linarith
    · split_ifs <;> linarith
  · exact ⟨hf0, hf1, hp0, hp1⟩

open WakeRest in
/-- C2 witness: the property at a concrete awake controller. -/
theorem update_preserves_unit_interval_witness :
    0 ≤ (update { Controller.init 0 with cognitive_fatigue := 1 / 2 }
        (8 / 10) (8 / 10) 3 false 60).cognitive_fatigue ∧
    (update { Controller.init 0 with cognitive_fatigue := 1 / 2 }
        (8 / 10) (8 / 10) 3 false 60).cognitive_fatigue ≤ 1 ∧
    0 ≤ (update { Controller.init 0 with cognitive_fatigue := 1 / 2 }
        (8 / 10) (8 / 10) 3 false 60).consolidation_pressure ∧
    (update { Controller.init 0 with cognitive_fatigue := 1 / 2 }
        (8 / 10) (8 / 10) 3 false 60).consolidation_pressure ≤ 1 :=
  update_preserves_unit_interval _ _ _ _ _ _ (by norm_num) (by norm_num)
    (by norm_num [Controller.init]) (by norm_num [Controller.init]) (by norm_num)
    (by norm_num) (by norm_num) (by norm_num) (by norm_num [Controller.init])

open WakeRest in
/-- C9: force_wake always leaves the controller AWAKE with both pressure
scalars reset to zero. -/
theorem force_wake_resets (m : Controller) (now : ℚ) :
    (force_wake m now).state = .AWAKE ∧
    (force_wake m now).cognitive_fatigue = 0 ∧
    (force_wake m now).consolidation_pressure = 0 := by
  unfold force_wake transitionToState
  simp



namespace Wisdom

theorem clampUnit_nonneg (v : ℚ) : 0 ≤ clampUnit v := le_max_left _ _

theorem clampUnit_le_one (v : ℚ) : clampUnit v ≤ 1 := by
  unfold clampUnit
  exact max_le (by norm_num) (min_le_left _ _)

theorem sum_div_length_nonneg (l : List ℚ) (h : ∀ x ∈ l, 0 ≤ x) :
    0 ≤ l.sum / (l.length : ℚ) :=
  div_nonneg (List.sum_nonneg h) (by positivity)

theorem sum_div_length_le_one (l : List ℚ) (hne : l ≠ []) (h : ∀ x ∈ l, x ≤ 1) :
    l.sum / (l.length : ℚ) ≤ 1 := by
  have hpos : (0 : ℚ) < (l.length : ℚ) := by
    exact_mod_cast List.length_pos.mpr hne
  rw [div_le_one hpos]
  have := List.sum_le_card_nsmul l 1 h
  simpa [nsmul_eq_mul] using this

theorem sum_div_length_le (l : List ℚ) (b : ℚ) (hne : l ≠ []) (h : ∀ x ∈ l, x ≤ b) :
    l.sum / (l.length : ℚ) ≤ b := by
  have hpos : (0 : ℚ) < (l.length : ℚ) := by
    exact_mod_cast List.length_pos.mpr hne
  rw [div_le_iff hpos]
  have := List.sum_le_card_nsmul l b h
  simpa [nsmul_eq_mul, mul_comm] using this

theorem pyMax_nonneg (l : List ℚ) (h : ∀ x ∈ l, 0 ≤ x) : 0 ≤ pyMax l := by
  induction l with
  | nil => simp [pyMax]
  | cons x rest ih =>
    cases rest with
    | nil => simpa [pyMax] using h x (by simp)
    | cons y t =>
      have : pyMax (x :: y :: t) = max x (pyMax (y :: t)) := rfl
      rw [this]
      exact le_max_of_le_right (ih (fun z hz => h z (List.mem_cons_of_mem x hz)))

theorem pyMax_le (l : List ℚ) (b : ℚ) (hb : 0 ≤ b) (h : ∀ x ∈ l, x ≤ b) :
    pyMax l ≤ b := by
  induction l with
  | nil => simpa [pyMax] using hb
  | cons x rest ih =>
    cases rest with
    | nil => simpa [pyMax] using h x (by simp)
    | cons y t =>
      have heq : pyMax (x :: y :: t) = max x (pyMax (y :: t)) := rfl
      rw [heq]
      exact max_le (h x (by simp)) (ih (fun z hz => h z (List.mem_cons_of_mem x hz)))

theorem lastN_subset (n : ℕ) (l : List α) : lastN n l ⊆ l := by
  unfold lastN
  exact List.drop_subset _ _

theorem lastN_ne_nil (n : ℕ) (l : List α) (hn : 0 < n) (hl : l ≠ []) :
    lastN n l ≠ [] := by
  have hlen : 0 < l.length := List.length_pos.mpr hl
  unfold lastN
  intro hc
  have := congrArg List.length hc
  simp only [List.length_drop, List.length_nil] at this
  omega

theorem bumpQ_nonneg (l : List (String × ℚ)) (k : String) (x : ℚ)
    (hl : ∀ p ∈ l, 0 ≤ p.2) (hx : 0 ≤ x) : ∀ p ∈ bumpQ l k x, 0 ≤ p.2 := by
  induction l with
  | nil =>
    intro p hp
    simp only [bumpQ, List.mem_singleton] at hp
    subst hp
    exact hx
  | cons q rest ih =>
    intro p hp
    simp only [bumpQ] at hp
    split at hp
    · rcases List.mem_cons.mp hp with h | h
      · subst h
        have := hl q (by simp)
        simpa using add_nonneg this hx
      · exact hl p (List.mem_cons_of_mem _ h)
    · rcases List.mem_cons.mp hp with h | h
      · subst h
        exact hl p (by simp)
      · exact ih (fun r hr => hl r (List.mem_cons_of_mem _ hr)) p h

theorem foldl_bumpQ_nonneg (ds : List String) (x : ℚ) (hx : 0 ≤ x) :
    ∀ (dk : List (String × ℚ)), (∀ p ∈ dk, 0 ≤ p.2) →
      ∀ p ∈ ds.foldl (fun dk d => bumpQ dk d x) dk, 0 ≤ p.2 := by
  induction ds with
  | nil =>
    intro dk hdk
    simpa using hdk
  | cons d t ih =>
    intro dk hdk
    simp only [List.foldl_cons]
    exact ih _ (bumpQ_nonneg dk d x hdk hx)

theorem metricsInv_init : MetricsInv Metrics.init := by
  unfold MetricsInv Metrics.init
  norm_num

theorem metricsInv_applyEvent (m : Metrics) (e : WEvent)
    (hm : MetricsInv m) (he : eventInRange e) : MetricsInv (applyEvent m e) := by
  obtain ⟨hIns, hUpd, hDk, hHist, hCur, hInt⟩ := hm
  cases e with
  | insight i =>
    obtain ⟨hd0, hd1, hb0, hb1, ha0, ha1, hcc⟩ := he
    unfold applyEvent add_insight
    dsimp only
    refine ⟨?_, hUpd, ?_, ?_, ⟨clampUnit_nonneg _, clampUnit_le_one _⟩, hInt⟩
    · intro j hj
      rcases List.mem_append.mp hj with h | h
      · exact hIns j h
      · rw [List.mem_singleton] at h
        subst h
        exact ⟨hd0, hd1, ha0, ha1⟩
    · exact foldl_bumpQ_nonneg _ _ (by positivity) _ hDk
    · intro c hc
      rcases List.mem_append.mp hc with h | h
      · exact hHist c h
      · rw [List.mem_singleton] at h
        subst h
        exact ⟨clampUnit_nonneg _, clampUnit_le_one _⟩
  | beliefUpdate u =>
    obtain ⟨hci, hcc⟩ := he
    unfold applyEvent add_belief_update
    dsimp only
    have habs : 0 ≤ |u.confidence_change| := abs_nonneg _
    refine ⟨hIns, ?_, hDk, ?_, ⟨clampUnit_nonneg _, clampUnit_le_one _⟩, ?_⟩
    · intro j hj
      rcases List.mem_append.mp hj with h | h
      · exact hUpd j h
      · rw [List.mem_singleton] at h
        subst h
        exact hci
    · intro c hc
      rcases List.mem_append.mp hc with h | h
      · exact hHist c h
      · rw [List.mem_singleton] at h
        subst h
        exact ⟨clampUnit_nonneg _, clampUnit_le_one _⟩
    · constructor
      · have := hInt.1
        positivity
      · have := hInt.2
        linarith

theorem metricsInv_foldl (evs : List WEvent) (m : Metrics) (hm : MetricsInv m)
    (h : ∀ e ∈ evs, eventInRange e) : MetricsInv (evs.foldl applyEvent m) := by
  induction evs generalizing m with
  | nil => simpa using hm
  | cons e t ih =>
    simp only [List.foldl_cons]
    exact ih (applyEvent m e) (metricsInv_applyEvent m e hm (h e (by simp)))
      (fun x hx => h x (List.mem_cons_of_mem e hx))

theorem depth_score_bounds (m : Metrics) (hm : MetricsInv m) :
    -(1 / 2) ≤ calculate_depth_score m ∧ calculate_depth_score m ≤ 1 := by
  obtain ⟨hIns, -, -, -, -, -⟩ := hm
  unfold calculate_depth_score
  split_ifs with h0 h1
  · norm_num
  · -- more than 10 insights: the trend term is present
    have hne : m.insights ≠ [] := h0
    have hrne : lastN 20 m.insights ≠ [] := lastN_ne_nil _ _ (by norm_num) hne
    have hmapne : (lastN 20 m.insights).map (fun i => i.depth_score) ≠ [] := by
      simpa using hrne
    have havg0 : 0 ≤ ((lastN 20 m.insights).map (fun i => i.depth_score)).sum /
        (((lastN 20 m.insights).map (fun i => i.depth_score)).length : ℚ) := by
      apply sum_div_length_nonneg
      intro x hx
      obtain ⟨i, hi, rfl⟩ := List.mem_map.mp hx
      exact (hIns i (lastN_subset _ _ hi)).1
    have havg1 : ((lastN 20 m.insights).map (fun i => i.depth_score)).sum /
        (((lastN 20 m.insights).map (fun i => i.depth_score)).length : ℚ) ≤ 1 := by
      apply sum_div_length_le_one _ hmapne
      intro x hx
      obtain ⟨i, hi, rfl⟩ := List.mem_map.mp hx
      exact (hIns i (lastN_subset _ _ hi)).2.1
    have hlen : (((lastN 20 m.insights).map (fun i => i.depth_score)).length : ℚ) =
        ((lastN 20 m.insights).length : ℚ) := by
      simp
    rw [List.length_map] at havg0 havg1
    have hearly1 : ((m.insights.take 10).map (fun i => i.depth_score)).sum / 10 ≤ 1 := by
      have hsum : ((m.insights.take 10).map (fun i => i.depth_score)).sum ≤
          (((m.insights.take 10).map (fun i => i.depth_score)).length : ℚ) * 1 := by
        have := List.sum_le_card_nsmul ((m.insights.take 10).map (fun i => i.depth_score)) 1
          (by
            intro x hx
            obtain ⟨i, hi, rfl⟩ := List.mem_map.mp hx
            exact (hIns i (List.take_subset _ _ hi)).2.1)
        simpa [nsmul_eq_mul, mul_comm] using this
      have hlen10 : (((m.insights.take 10).map (fun i => i.depth_score)).length : ℚ) ≤ 10 := by
        have := List.length_take_le 10 m.insights
        simp only [List.length_map]
        exact_mod_cast this
      nlinarith
    have hearly0 : 0 ≤ ((m.insights.take 10).map (fun i => i.depth_score)).sum / 10 := by
      apply div_nonneg _ (by norm_num)
      apply List.sum_nonneg
      intro x hx
      obtain ⟨i, hi, rfl⟩ := List.mem_map.mp hx
      exact (hIns i (List.take_subset _ _ hi)).1
    have hbonus0 : (0 : ℚ) ≤ min (2 / 10)
        (((m.insights.filter (fun i => i.depth_score > 8 / 10)).length : ℚ) * (2 / 100)) := by
      apply le_min (by norm_num)
      positivity
    constructor
    · apply le_min (by norm_num)
      nlinarith
    · exact min_le_left _ _
  · -- at most 10 insights: no trend term
    have hne : m.insights ≠ [] := h0
    have hrne : lastN 20 m.insights ≠ [] := lastN_ne_nil _ _ (by norm_num) hne
    have hmapne : (lastN 20 m.insights).map (fun i => i.depth_score) ≠ [] := by
      simpa using hrne
    have havg0 : 0 ≤ ((lastN 20 m.insights).map (fun i => i.depth_score)).sum /
        (((lastN 20 m.insights).map (fun i => i.depth_score)).length : ℚ) := by
      apply sum_div_length_nonneg
      intro x hx
      obtain ⟨i, hi, rfl⟩ := List.mem_map.mp hx
      exact (hIns i (lastN_subset _ _ hi)).1
    rw [List.length_map] at havg0
    have hbonus0 : (0 : ℚ) ≤ min (2 / 10)
        (((m.insights.filter (fun i => i.depth_score > 8 / 10)).length : ℚ) * (2 / 100)) := by
      apply le_min (by norm_num)
      positivity
    constructor
    · apply le_min (by norm_num)
      nlinarith
    · exact min_le_left _ _

end Wisdom


namespace Wisdom

theorem breadth_score_bounds (m : Metrics) (hm : MetricsInv m) :
    0 ≤ calculate_breadth_score m ∧ calculate_breadth_score m ≤ 1 := by
  obtain ⟨-, -, hDk, -, -, -⟩ := hm
  unfold calculate_breadth_score
  dsimp only
  split_ifs with h0 h1
  · norm_num
  · -- non-empty domain knowledge with positive total
    have hdd0 : (0 : ℚ) ≤ min 1
        (((m.domain_knowledge.filter (fun p => p.2 > 1 / 10)).length : ℚ) / 10) := by
      apply le_min (by norm_num)
      positivity
    have hdd1 : min 1
        (((m.domain_knowledge.filter (fun p => p.2 > 1 / 10)).length : ℚ) / 10) ≤ 1 :=
      min_le_left _ _
    have hcs0 : (0 : ℚ) ≤ min 1 ((m.domain_connections.length : ℚ) / 20) := by
      apply le_min (by norm_num)
      positivity
    have hcs1 : min 1 ((m.domain_connections.length : ℚ) / 20) ≤ 1 := min_le_left _ _
    have hshare : ∀ x ∈ m.domain_knowledge.map
        (fun p => p.2 / (m.domain_knowledge.map (fun p => p.2)).sum), 0 ≤ x ∧ x ≤ 1 := by
      intro x hx
      obtain ⟨p, hp, rfl⟩ := List.mem_map.mp hx
      have hmem : p.2 ∈ m.domain_knowledge.map (fun p => p.2) :=
        List.mem_map_of_mem _ hp
      have hp2 : 0 ≤ p.2 := hDk p hp
      have hle : p.2 ≤ (m.domain_knowledge.map (fun p => p.2)).sum :=
        List.single_le_sum
          (by
            intro y hy
            obtain ⟨q, hq, rfl⟩ := List.mem_map.mp hy
            exact hDk q hq) _ hmem
      exact ⟨div_nonneg hp2 (le_of_lt h1), (div_le_one h1).mpr hle⟩
    have hpm0 : 0 ≤ pyMax (m.domain_knowledge.map
        (fun p => p.2 / (m.domain_knowledge.map (fun p => p.2)).sum)) :=
      pyMax_nonneg _ (fun x hx => (hshare x hx).1)
    have hpm1 : pyMax (m.domain_knowledge.map
        (fun p => p.2 / (m.domain_knowledge.map (fun p => p.2)).sum)) ≤ 1 :=
      pyMax_le _ 1 (by norm_num) (fun x hx => (hshare x hx).2)
    constructor <;> nlinarith
  · -- non-empty domain knowledge with zero total
    have hdd0 : (0 : ℚ) ≤ min 1
        (((m.domain_knowledge.filter (fun p => p.2 > 1 / 10)).length : ℚ) / 10) := by
      apply le_min (by norm_num)
      positivity
    have hdd1 : min 1
        (((m.domain_knowledge.filter (fun p => p.2 > 1 / 10)).length : ℚ) / 10) ≤ 1 :=
      min_le_left _ _
    have hcs0 : (0 : ℚ) ≤ min 1 ((m.domain_connections.length : ℚ) / 20) := by
      apply le_min (by norm_num)
      positivity
    have hcs1 : min 1 ((m.domain_connections.length : ℚ) / 20) ≤ 1 := min_le_left _ _
    constructor <;> nlinarith

theorem applicability_score_bounds (m : Metrics) (hm : MetricsInv m) :
    0 ≤ calculate_applicability_score m ∧ calculate_applicability_score m ≤ 1 := by
  obtain ⟨hIns, -, -, -, -, -⟩ := hm
  unfold calculate_applicability_score
  dsimp only
  split_ifs with h0
  · norm_num
  · have hne : m.insights ≠ [] := h0
    have hrne : lastN 20 m.insights ≠ [] := lastN_ne_nil _ _ (by norm_num) hne
    have hmapne : (lastN 20 m.insights).map (fun i => i.applicability_score) ≠ [] := by
      simpa using hrne
    have havg0 : 0 ≤ ((lastN 20 m.insights).map (fun i => i.applicability_score)).sum /
        (((lastN 20 m.insights).map (fun i => i.applicability_score)).length : ℚ) := by
      apply sum_div_length_nonneg
      intro x hx
      obtain ⟨i, hi, rfl⟩ := List.mem_map.mp hx
      exact (hIns i (lastN_subset _ _ hi)).2.2.1
    have havg1 : ((lastN 20 m.insights).map (fun i => i.applicability_score)).sum /
        (((lastN 20 m.insights).map (fun i => i.applicability_score)).length : ℚ) ≤ 1 := by
      apply sum_div_length_le_one _ hmapne
      intro x hx
      obtain ⟨i, hi, rfl⟩ := List.mem_map.mp hx
      exact (hIns i (lastN_subset _ _ hi)).2.2.2
    rw [List.length_map] at havg0 havg1
    have hlenpos : (0 : ℚ) < (m.insights.length : ℚ) := by
      exact_mod_cast List.length_pos.mpr hne
    have hratio0 : (0 : ℚ) ≤
        ((m.insights.filter (fun i => i.applicability_score > 7 / 10)).length : ℚ) /
          (m.insights.length : ℚ) := by positivity
    have hratio1 :
        ((m.insights.filter (fun i => i.applicability_score > 7 / 10)).length : ℚ) /
          (m.insights.length : ℚ) ≤ 1 := by
      rw [div_le_one hlenpos]
      exact_mod_cast List.length_filter_le _ _
    constructor <;> nlinarith

theorem coherence_score_bounds (m : Metrics) (hm : MetricsInv m) :
    -(1 / 20) ≤ calculate_coherence_score m ∧ calculate_coherence_score m ≤ 1 := by
  obtain ⟨-, -, -, hHist, hCur, -⟩ := hm
  have hcur0 := hCur.1
  have hearly : m.worldview_coherence_history.length > 10 →
      ((m.worldview_coherence_history.take 5).map (fun p => p.2)).sum / 5 ≤ 1 := by
    intro hlong
    have hsum : ((m.worldview_coherence_history.take 5).map (fun p => p.2)).sum ≤
        (((m.worldview_coherence_history.take 5).map (fun p => p.2)).length : ℚ) * 1 := by
      have := List.sum_le_card_nsmul
        ((m.worldview_coherence_history.take 5).map (fun p => p.2)) 1
        (by
          intro x hx
          obtain ⟨p, hp, rfl⟩ := List.mem_map.mp hx
          exact (hHist p (List.take_subset _ _ hp)).2)
      simpa [nsmul_eq_mul, mul_comm] using this
    have hlen5 : (((m.worldview_coherence_history.take 5).map (fun p => p.2)).length : ℚ)
        ≤ 5 := by
      have := List.length_take_le 5 m.worldview_coherence_history
      simp only [List.length_map]
      exact_mod_cast this
    nlinarith
  unfold calculate_coherence_score
  dsimp only
  split_ifs with h0 h1 h2 h2
  · norm_num
  · refine ⟨le_min (by norm_num) ?_, min_le_left _ _⟩
    have hst : (0 : ℚ) ≤ max 0 (1 -
        (((lastN 10 m.worldview_coherence_history).map (fun p => p.2)).map
          (fun c => (c - m.current_coherence) ^ 2)).sum /
        ((((lastN 10 m.worldview_coherence_history).map (fun p => p.2)).length : ℚ))) :=
      le_max_left _ _
    have htr := hearly h2
    have htr0 : -(1 / 2) ≤ (m.current_coherence -
        ((m.worldview_coherence_history.take 5).map (fun p => p.2)).sum / 5) * (1 / 2) := by
      nlinarith
    nlinarith
  · refine ⟨le_min (by norm_num) ?_, min_le_left _ _⟩
    have hst : (0 : ℚ) ≤ max 0 (1 -
        (((lastN 10 m.worldview_coherence_history).map (fun p => p.2)).map
          (fun c => (c - m.current_coherence) ^ 2)).sum /
        ((((lastN 10 m.worldview_coherence_history).map (fun p => p.2)).length : ℚ))) :=
      le_max_left _ _
    nlinarith
  · refine ⟨le_min (by norm_num) ?_, min_le_left _ _⟩
    have htr := hearly h2
    have htr0 : -(1 / 2) ≤ (m.current_coherence -
        ((m.worldview_coherence_history.take 5).map (fun p => p.2)).sum / 5) * (1 / 2) := by
      nlinarith
    nlinarith
  · refine ⟨le_min (by norm_num) ?_, min_le_left _ _⟩
    nlinarith

theorem adaptability_score_bounds (m : Metrics) (hm : MetricsInv m) :
    0 ≤ calculate_adaptability_score m ∧ calculate_adaptability_score m ≤ 1 := by
  obtain ⟨-, -, -, -, -, hInt⟩ := hm
  have havg0 : (0 : ℚ) ≤
      ((lastN 10 m.belief_updates).map (fun u => |u.coherence_impact|)).sum /
        ((((lastN 10 m.belief_updates).map (fun u => |u.coherence_impact|)).length : ℚ)) := by
    apply div_nonneg _ (by positivity)
    apply List.sum_nonneg
    intro x hx
    obtain ⟨u, hu, rfl⟩ := List.mem_map.mp hx
    exact abs_nonneg _
  unfold calculate_adaptability_score
  dsimp only
  split_ifs with h0 h1 h2 h2
  · norm_num
  · -- insights present, more than 5 updates
    have hf0 : (0 : ℚ) ≤ min 1
        ((m.belief_updates.length : ℚ) / (m.insights.length : ℚ) * 2) := by
      apply le_min (by norm_num)
      positivity
    have hf1 : min 1 ((m.belief_updates.length : ℚ) / (m.insights.length : ℚ) * 2) ≤ 1 :=
      min_le_left _ _
    have hb0 : (0 : ℚ) ≤ min 1
        (((lastN 10 m.belief_updates).map (fun u => |u.coherence_impact|)).sum /
          ((((lastN 10 m.belief_updates).map (fun u => |u.coherence_impact|)).length : ℚ)) * 2) := by
      apply le_min (by norm_num)
      nlinarith
    have hb1 : min 1
        (((lastN 10 m.belief_updates).map (fun u => |u.coherence_impact|)).sum /
          ((((lastN 10 m.belief_updates).map (fun u => |u.coherence_impact|)).length : ℚ)) * 2) ≤ 1 :=
      min_le_left _ _
    rw [List.length_map] at hb0 hb1
    constructor <;> nlinarith [hInt.1, hInt.2]
  · have hf0 : (0 : ℚ) ≤ min 1
        ((m.belief_updates.length : ℚ) / (m.insights.length : ℚ) * 2) := by
      apply le_min (by norm_num)
      positivity
    have hf1 : min 1 ((m.belief_updates.length : ℚ) / (m.insights.length : ℚ) * 2) ≤ 1 :=
      min_le_left _ _
    constructor <;> nlinarith [hInt.1, hInt.2]
  · have hb0 : (0 : ℚ) ≤ min 1
        (((lastN 10 m.belief_updates).map (fun u => |u.coherence_impact|)).sum /
          ((((lastN 10 m.belief_updates).map (fun u => |u.coherence_impact|)).length : ℚ)) * 2) := by
      apply le_min (by norm_num)
      nlinarith
    have hb1 : min 1
        (((lastN 10 m.belief_updates).map (fun u => |u.coherence_impact|)).sum /
          ((((lastN 10 m.belief_updates).map (fun u => |u.coherence_impact|)).length : ℚ)) * 2) ≤ 1 :=
      min_le_left _ _
    rw [List.length_map] at hb0 hb1
    constructor <;> nlinarith [hInt.1, hInt.2]
  · constructor <;> nlinarith [hInt.1, hInt.2]

end Wisdom


open Wisdom in
/-- C3 counterexample: a sequence of 36 in-range recording calls after
which the composite wisdom score is negative, refuting the claim that
the composite always lies in the unit interval. -/
theorem composite_wisdom_unit_interval_cex :
    cexEvents.length ≤ 100 ∧ (∀ e ∈ cexEvents, eventInRange e) ∧
    calculate_composite_wisdom_score (applyEvents cexEvents) < 0 := by
  refine ⟨by norm_num [cexEvents], ?_, ?_⟩
  · intro e he
    fin_cases he <;> norm_num [plainInsight, plainUpdate, eventInRange]
  · norm_num [cexEvents, plainInsight, plainUpdate, applyEvents, applyEvent,
      add_insight, add_belief_update, Metrics.init, clampUnit, pairKeys,
      calculate_composite_wisdom_score, calculate_depth_score, calculate_breadth_score,
      calculate_applicability_score, calculate_coherence_score,
      calculate_adaptability_score, lastN, pyMax, List.cons_ne_nil, abs_zero]

open Wisdom in
/-- C3 amended: for every sequence of at most 100 in-range recording
calls the composite wisdom score lies between -11/80 and 1.  The lower
end is genuinely below zero: the depth sub-score can reach -1/2 through
its improvement-bonus term and the coherence sub-score can reach -1/20
through its trend term. -/
theorem composite_wisdom_score_bounded (evs : List WEvent) (hlen : evs.length ≤ 100)
    (hr : ∀ e ∈ evs, eventInRange e) :
    -(11 / 80) ≤ calculate_composite_wisdom_score (applyEvents evs) ∧
    calculate_composite_wisdom_score (applyEvents evs) ≤ 1 := by
  have hm : MetricsInv (applyEvents evs) :=
    metricsInv_foldl evs Metrics.init metricsInv_init hr
  have h1 := depth_score_bounds _ hm
  have h2 := breadth_score_bounds _ hm
  have h3 := applicability_score_bounds _ hm
  have h4 := coherence_score_bounds _ hm
  have h5 := adaptability_score_bounds _ hm
  unfold calculate_composite_wisdom_score
  constructor <;> nlinarith [h1.1, h1.2, h2.1, h2.2, h3.1, h3.2, h4.1, h4.2, h5.1, h5.2]

open Wisdom in
/-- C3 amended witness: the bounds at a concrete single-insight
sequence. -/
theorem composite_wisdom_score_bounded_witness :
    -(11 / 80) ≤ calculate_composite_wisdom_score (applyEvents [plainInsight 1 (8 / 10) 1]) ∧
    calculate_composite_wisdom_score (applyEvents [plainInsight 1 (8 / 10) 1]) ≤ 1 :=
  composite_wisdom_score_bounded [plainInsight 1 (8 / 10) 1] (by norm_num)
    (by
      intro e he
      rw [List.mem_singleton] at he
      subst he
      unfold plainInsight eventInRange
      norm_num)



namespace Orchestrator

theorem checkWakeRestState_history (s : Orchestrator) (now : ℚ) :
    (checkWakeRestState s now).context_history = s.context_history := by
  unfold checkWakeRestState
  cases s.wake_rest_controller <;> rfl

theorem checkWakeRestState_cycle_count (s : Orchestrator) (now : ℚ) :
    (checkWakeRestState s now).cycle_count = s.cycle_count := by
  unfold checkWakeRestState
  cases s.wake_rest_controller <;> rfl

theorem orchestrationStep_cycle_count (s : Orchestrator) (now : ℚ) :
    (orchestrationStep s now).cycle_count = s.cycle_count + 1 := by
  unfold orchestrationStep runOrchestrationCycle
  dsimp only
  rw [checkWakeRestState_cycle_count]

theorem orchestrationStep_history (s : Orchestrator) (now : ℚ) :
    (orchestrationStep s now).context_history =
      capList 100 (s.context_history ++ [buildContext (checkWakeRestState s now) now]) := by
  unfold orchestrationStep runOrchestrationCycle
  dsimp only
  rw [checkWakeRestState_history]

theorem orchestrationStep_history_le (s : Orchestrator) (now : ℚ) :
    (orchestrationStep s now).context_history.length ≤ 100 := by
  rw [orchestrationStep_history, capList_eq_drop]
  simp only [List.length_drop, List.length_append, List.length_singleton]
  omega

end Orchestrator

open Orchestrator in
/-- C8: each completed orchestration cycle increments the cycle count
by exactly one; after a completed cycle the context history is the
most recent at-most-100 suffix of the previous history with the fresh
context appended, so the oldest entries are evicted first; a run of n
cycles adds exactly n to the cycle count, and a history that starts
within the cap never exceeds 100 entries. -/
theorem orchestrator_tick_and_history (s : Orchestrator) (now : ℚ) (ts : List ℚ) :
    (orchestrationStep s now).cycle_count = s.cycle_count + 1 ∧
    (orchestrationStep s now).context_history =
      (s.context_history ++ [buildContext (checkWakeRestState s now) now]).drop
        (s.context_history.length + 1 - 100) ∧
    (orchestrationStep s now).context_history.length ≤ 100 ∧
    ((orchestrationStep s now).context_history <:+
      s.context_history ++ [buildContext (checkWakeRestState s now) now]) ∧
    (runSteps s ts).cycle_count = s.cycle_count + ts.length ∧
    (s.context_history.length ≤ 100 → (runSteps s ts).context_history.length ≤ 100) := by
  refine ⟨orchestrationStep_cycle_count s now, ?_, orchestrationStep_history_le s now, ?_, ?_, ?_⟩
  · rw [orchestrationStep_history, capList_eq_drop]
    simp [List.length_append]
  · rw [orchestrationStep_history]
    exact capList_suffix _ _
  · induction ts generalizing s with
    | nil => simp [runSteps]
    | cons t rest ih =>
      have := ih (orchestrationStep s t)
      simp only [runSteps, List.foldl_cons] at this ⊢
      rw [this, orchestrationStep_cycle_count]
      simp only [List.length_cons]
      omega
  · intro hle
    induction ts generalizing s with
    | nil => simpa [runSteps] using hle
    | cons t rest ih =>
      simp only [runSteps, List.foldl_cons]
      have hstep := orchestrationStep_history_le s t
      have := ih (orchestrationStep s t) hstep
      simpa [runSteps] using this

open Orchestrator in
/-- C8 witness: the property at a two-tick run from a fresh
orchestrator with no subsystems wired in. -/
theorem orchestrator_tick_and_history_witness :
    (orchestrationStep (Orchestrator.init none) 0).cycle_count =
      (Orchestrator.init none).cycle_count + 1 ∧
    (orchestrationStep (Orchestrator.init none) 0).context_history =
      ((Orchestrator.init none).context_history ++
        [buildContext (checkWakeRestState (Orchestrator.init none) 0) 0]).drop
        ((Orchestrator.init none).context_history.length + 1 - 100) ∧
    (orchestrationStep (Orchestrator.init none) 0).context_history.length ≤ 100 ∧
    ((orchestrationStep (Orchestrator.init none) 0).context_history <:+
      (Orchestrator.init none).context_history ++
        [buildContext (checkWakeRestState (Orchestrator.init none) 0) 0]) ∧
    (runSteps (Orchestrator.init none) [0, 1]).cycle_count =
      (Orchestrator.init none).cycle_count + ([0, 1] : List ℚ).length ∧
    (runSteps (Orchestrator.init none) [0, 1]).context_history.length ≤ 100 := by
  have h := orchestrator_tick_and_history (Orchestrator.init none) 0 [0, 1]
  exact ⟨h.1, h.2.1, h.2.2.1, h.2.2.2.1, h.2.2.2.2.1,
    h.2.2.2.2.2 (by simp [Orchestrator.init])⟩



open Interest in
/-- C6: the claimed clustering invariant fails.  After the relations
(a,b), (c,d), (d,b) the two clusters merge into the key cluster_1 and
the dictionary holds one entry, so the next relation (e,f) between two
unclustered topics reuses the id cluster_1 and overwrites the live
cluster: the final clustering is the single cluster containing e and f,
and the chain-connected topics a and b belong to no cluster at all. -/
theorem add_topic_relation_overwrites_cluster :
    (applyRelations Tracker.init
        [("a", "b"), ("c", "d"), ("d", "b"), ("e", "f")]).topic_clusters =
      [("cluster_1", ["e", "f"])] ∧
    ∀ c ∈ (applyRelations Tracker.init
        [("a", "b"), ("c", "d"), ("d", "b"), ("e", "f")]).topic_clusters,
      "a" ∉ c.2 := by
  constructor
  · decide
  · decide

namespace Interest

theorem lookup_map_engagements (l : List (String × TopicEngagement))
    (f : TopicEngagement → TopicEngagement) (k : String) :
    lookup (l.map (fun p => (p.1, f p.2))) k = (lookup l k).map f := by
  induction l with
  | nil => rfl
  | cons q rest ih =>
    by_cases h : q.1 = k
    · simp [lookup, List.find?, h]
    · have hb : (q.1 == k) = false := by
        simpa using h
      simp only [List.map_cons, lookup, List.find?, hb] at ih ⊢
      exact ih

theorem updateSalience_engagements (s : Tracker) (t : String) (now : ℝ) :
    (updateSalience s t now).topic_engagements = s.topic_engagements := by
  unfold updateSalience
  cases lookup s.topic_engagements t <;> rfl

theorem foldl_updateSalience_engagements (ps : List (String × TopicEngagement))
    (s : Tracker) (now : ℝ) :
    ((ps.foldl (fun st p => updateSalience st p.1 now) s)).topic_engagements =
      s.topic_engagements := by
  induction ps generalizing s with
  | nil => rfl
  | cons p rest ih =>
    simp only [List.foldl_cons]
    rw [ih, updateSalience_engagements]

theorem updateActiveInterests_engagements (s : Tracker) :
    (updateActiveInterests s).topic_engagements = s.topic_engagements := rfl

theorem decay_interests_engagements (s : Tracker) (now : ℝ) :
    (decay_interests s now).topic_engagements =
      s.topic_engagements.map (fun p => (p.1, decayEngagement p.2 now)) := by
  unfold decay_interests
  dsimp only
  rw [updateActiveInterests_engagements, foldl_updateSalience_engagements]

end Interest

open Interest in
/-- C10: after a decay_interests call, every topic whose last encounter
lies at least ten days in the past (and whose curiosity is, as always,
non-negative) has curiosity level exactly one: the additive recovery
term of 0.1 per day reaches the upper clamp on its own, so decay can
only raise such a topic's curiosity to its maximum. -/
theorem decay_sets_long_neglected_curiosity (s : Tracker) (now : ℝ) (t : String)
    (e : TopicEngagement) (hl : lookup s.topic_engagements t = some e)
    (hc : 0 ≤ e.curiosity_level) (hd : 10 * 86400 ≤ now - e.last_encounter) :
    lookup (decay_interests s now).topic_engagements t =
      some (decayEngagement e now) ∧
    (decayEngagement e now).curiosity_level = 1 := by
  constructor
  · rw [decay_interests_engagements,
      lookup_map_engagements s.topic_engagements (fun e2 => decayEngagement e2 now) t, hl]
    rfl
  · unfold decayEngagement
    dsimp only
    have hdays : (10 : ℝ) ≤ (now - e.last_encounter) / 86400 := by
      rw [le_div_iff (by norm_num : (0 : ℝ) < 86400)]
      linarith
    have hpow : (0 : ℝ) ≤ interest_decay_rate ^ ((now - e.last_encounter) / 86400) :=
      Real.rpow_nonneg (by norm_num [interest_decay_rate]) _
    have hprod : (0 : ℝ) ≤
        e.curiosity_level * interest_decay_rate ^ ((now - e.last_encounter) / 86400) :=
      mul_nonneg hc hpow
    have hrec : (1 : ℝ) ≤ curiosity_recovery_rate * ((now - e.last_encounter) / 86400) := by
      unfold curiosity_recovery_rate
      nlinarith
    exact min_eq_left (by linarith)

open Interest in
/-- C10 witness: the sample engagement, ten days after its only
encounter. -/
theorem decay_sets_long_neglected_curiosity_witness :
    lookup (decay_interests sampleTracker 864000).topic_engagements "t" =
      some (decayEngagement sampleEngagement 864000) ∧
    (decayEngagement sampleEngagement 864000).curiosity_level = 1 :=
  decay_sets_long_neglected_curiosity sampleTracker 864000 "t" sampleEngagement
    (by rfl)
    (by norm_num [sampleEngagement])
    (by norm_num [sampleEngagement])



namespace Interest

theorem lookup_setKey_self (l : List (String × α)) (k : String) (v : α) :
    lookup (setKey l k v) k = some v := by
  induction l with
  | nil => simp [lookup, setKey, List.find?]
  | cons q rest ih =>
    by_cases h : q.1 = k
    · simp [lookup, setKey, h, List.find?]
    · have hb : (q.1 == k) = false := by simpa using h
      simp only [setKey, if_neg h, lookup, List.find?, hb] at ih ⊢
      exact ih

theorem updateSalience_salience_of_lookup (s : Tracker) (t : String) (now : ℝ)
    (e : TopicEngagement) (hl : lookup s.topic_engagements t = some e) :
    (updateSalience s t now).salience_map = setKey s.salience_map t (salienceOf e now) := by
  unfold updateSalience
  rw [hl]

theorem updateActiveInterests_salience (s : Tracker) :
    (updateActiveInterests s).salience_map = s.salience_map := rfl

theorem salienceOf_eq_specSalience (e : TopicEngagement) (now : ℝ) :
    salienceOf e now = specSalience e now := by
  unfold salienceOf specSalience
  ring

end Interest

open Interest in
/-- C4: after any recorded encounter the stored salience of the topic
equals the specification formula 0.3 recency + 0.2 frequency +
0.2 emotion + 0.2 curiosity + 0.1 learning-potential evaluated on the
stored engagement; in particular a first encounter with valence 0 and
learning, whose engagement has one encounter, curiosity 0.7 and
progress 0.1, gets salience 0.3*1 + 0.2*0.1 + 0.2*0.5 + 0.2*0.7 +
0.1*0.2. -/
theorem record_encounter_salience_formula (s : Tracker) (topic : String)
    (duration emotional_valence : ℝ) (learning_occurred : Bool)
    (satisfaction now : ℝ) :
    (∃ e, lookup (record_topic_encounter s topic duration emotional_valence
        learning_occurred satisfaction now).topic_engagements topic = some e ∧
      lookup (record_topic_encounter s topic duration emotional_valence
        learning_occurred satisfaction now).salience_map topic =
        some (specSalience e now)) ∧
    (lookup s.topic_engagements topic = none → emotional_valence = 0 →
      learning_occurred = true →
      lookup (record_topic_encounter s topic duration emotional_valence
        learning_occurred satisfaction now).salience_map topic =
        some ((3 / 10) * 1 + (2 / 10) * (1 / 10) + (2 / 10) * (1 / 2) +
          (2 / 10) * (7 / 10) + (1 / 10) * (1 / 5))) := by
  unfold record_topic_encounter
  dsimp only
  cases hl : lookup s.topic_engagements topic with
  | none =>
    dsimp only
    constructor
    · exact ⟨_,
        by
          rw [updateActiveInterests_engagements, updateSalience_engagements]
          exact lookup_setKey_self ..,
        by
          rw [updateActiveInterests_salience,
            updateSalience_salience_of_lookup _ _ _ _ (lookup_setKey_self ..),
            lookup_setKey_self, salienceOf_eq_specSalience]⟩
    · intro _ hv hlo
      subst hv
      subst hlo
      rw [updateActiveInterests_salience,
        updateSalience_salience_of_lookup _ _ _ _ (lookup_setKey_self ..),
        lookup_setKey_self, salienceOf_eq_specSalience]
      unfold specSalience
      dsimp only
      have habs : |(if true then (1 : ℝ) / 10 else 0) - 1 / 2| = 2 / 5 := by
        rw [if_pos rfl, abs_of_nonpos (by norm_num)]
        norm_num
      rw [habs]
      have hexp : -(now - now) / 86400 = 0 := by ring
      rw [hexp, Real.exp_zero]
      have hmin : min 1 (((1 : ℕ) : ℝ) / 10) = 1 / 10 := by
        rw [min_eq_right (by norm_num)]
        norm_num
      rw [hmin]
      norm_num
  | some e =>
    dsimp only
    constructor
    · exact ⟨_,
        by
          rw [updateActiveInterests_engagements, updateSalience_engagements]
          exact lookup_setKey_self ..,
        by
          rw [updateActiveInterests_salience,
            updateSalience_salience_of_lookup _ _ _ _ (lookup_setKey_self ..),
            lookup_setKey_self, salienceOf_eq_specSalience]⟩
    · intro hnone
      exact Option.noConfusion hnone

open Interest in
/-- C4 witness: a first encounter on a fresh tracker at time 0
produces salience 0.58 in the claimed decomposition. -/
theorem record_encounter_salience_formula_witness :
    lookup (record_topic_encounter Tracker.init "t" 300 0 true (1 / 2) 0).salience_map "t" =
      some ((3 / 10) * 1 + (2 / 10) * (1 / 10) + (2 / 10) * (1 / 2) +
        (2 / 10) * (7 / 10) + (1 / 10) * (1 / 5)) :=
  (record_encounter_salience_formula Tracker.init "t" 300 0 true (1 / 2) 0).2
    rfl rfl rfl

open Interest in
/-- C7: should_join_discussion holds exactly when the topic is an
active interest, or its stored salience exceeds 0.4, or it is related
to an active-interest topic, or it shares a cluster with an active
interest; in particular it holds for every active interest, and fails
for a topic of salience zero sharing no relation and no cluster with
any active interest (active interests always carry salience above
0.3). -/
theorem should_join_discussion_spec (s : Tracker) (topic : String)
    (hwf : ∀ a ∈ s.active_interests, salienceGet s a > 3 / 10) :
    (should_join_discussion s topic ↔ spec_should_join s topic) ∧
    (∀ t ∈ s.active_interests, should_join_discussion s t) ∧
    (salienceGet s topic = 0 →
      (∀ a ∈ s.active_interests, topic ∉ relatedGet s a) →
      (∀ c ∈ s.topic_clusters, topic ∈ c.2 → ∀ a ∈ s.active_interests, a ∉ c.2) →
      ¬ should_join_discussion s topic) := by
  refine ⟨?_, ?_, ?_⟩
  · unfold should_join_discussion spec_should_join
    constructor
    · rintro (h | h | ⟨a, ha, ht⟩ | h)
      · exact Or.inl h
      · exact Or.inr (Or.inl h)
      · refine Or.inr (Or.inr (Or.inl ?_))
        unfold relatedGet at ht
        cases he : lookup s.topic_engagements a with
        | none =>
          rw [he] at ht
          cases ht
        | some e =>
          rw [he] at ht
          exact ⟨a, ha, e, he, ht⟩
      · exact Or.inr (Or.inr (Or.inr h))
    · rintro (h | h | ⟨a, ha, e, he, ht⟩ | h)
      · exact Or.inl h
      · exact Or.inr (Or.inl h)
      · refine Or.inr (Or.inr (Or.inl ⟨a, ha, ?_⟩))
        unfold relatedGet
        rw [he]
        exact ht
      · exact Or.inr (Or.inr (Or.inr h))
  · intro t ht
    exact Or.inl ht
  · intro h0 hrel hcl hj
    rcases hj with h | h | ⟨a, ha, ht⟩ | ⟨c, hc, htc, a, ha, hac⟩
    · have := hwf topic h
      rw [h0] at this
      norm_num at this
    · rw [h0] at h
      norm_num at h
    · exact hrel a ha ht
    · exact hcl c hc htc a ha hac

open Interest in
/-- C7 witness: in a tracker whose single active interest x has
salience one half, the decision holds for x and fails for an untracked
topic y. -/
theorem should_join_discussion_spec_witness :
    should_join_discussion discussionTracker "x" ∧
    ¬ should_join_discussion discussionTracker "y" := by
  have hwf : ∀ a ∈ discussionTracker.active_interests,
      salienceGet discussionTracker a > 3 / 10 := by
    intro a ha
    simp only [discussionTracker, Tracker.init, List.mem_singleton] at ha
    subst ha
    norm_num [salienceGet, lookup, discussionTracker, Tracker.init, List.find?]
  have h := should_join_discussion_spec discussionTracker "y" hwf
  refine ⟨?_, ?_⟩
  · exact (should_join_discussion_spec discussionTracker "x" hwf).2.1 "x"
      (by simp [discussionTracker, Tracker.init])
  · refine h.2.2 ?_ ?_ ?_
    · rfl
    · intro a ha
      simp only [discussionTracker, Tracker.init, List.mem_singleton] at ha
      subst ha
      simp [relatedGet, lookup, discussionTracker, Tracker.init, List.find?]
    · intro c hc
      simp [discussionTracker, Tracker.init] at hc



namespace Wisdom

theorem metrics_eq_of_fields (a b : Metrics)
    (h1 : a.insights = b.insights) (h2 : a.belief_updates = b.belief_updates)
    (h3 : a.domain_knowledge = b.domain_knowledge)
    (h4 : a.domain_connections = b.domain_connections)
    (h5 : a.worldview_coherence_history = b.worldview_coherence_history)
    (h6 : a.current_coherence = b.current_coherence)
    (h7 : a.belief_revision_count = b.belief_revision_count)
    (h8 : a.evidence_integration_score = b.evidence_integration_score) : a = b := by
  cases a
  cases b
  simp_all

theorem connections_inv (evs : List WEvent) :
    (applyEvents evs).domain_connections =
      (applyEvents evs).insights.foldl
        (fun dc i => (pairKeys i.related_domains).foldl (fun dc k => bumpN dc k) dc)
        [] := by
  have step : ∀ (m : Metrics) (e : WEvent),
      m.domain_connections =
        m.insights.foldl
          (fun dc i => (pairKeys i.related_domains).foldl (fun dc k => bumpN dc k) dc)
          [] →
      (applyEvent m e).domain_connections =
        (applyEvent m e).insights.foldl
          (fun dc i => (pairKeys i.related_domains).foldl (fun dc k => bumpN dc k) dc)
          [] := by
    intro m e hm
    cases e with
    | insight i =>
      unfold applyEvent add_insight
      dsimp only
      rw [List.foldl_append, List.foldl_cons, List.foldl_nil, ← hm]
    | beliefUpdate u =>
      unfold applyEvent add_belief_update
      dsimp only
      exact hm
  have main : ∀ (l : List WEvent) (m : Metrics),
      m.domain_connections =
        m.insights.foldl
          (fun dc i => (pairKeys i.related_domains).foldl (fun dc k => bumpN dc k) dc)
          [] →
      (l.foldl applyEvent m).domain_connections =
        (l.foldl applyEvent m).insights.foldl
          (fun dc i => (pairKeys i.related_domains).foldl (fun dc k => bumpN dc k) dc)
          [] := by
    intro l
    induction l with
    | nil => intro m hm; simpa using hm
    | cons e t ih =>
      intro m hm
      simp only [List.foldl_cons]
      exact ih _ (step m e hm)
  exact main evs Metrics.init rfl

theorem insight_only_inv (evs : List WEvent)
    (h : ∀ e ∈ evs, ∃ i, e = WEvent.insight i) :
    (applyEvents evs).belief_updates = [] ∧
    (applyEvents evs).belief_revision_count = 0 ∧
    (applyEvents evs).evidence_integration_score = 1 / 2 ∧
    ((applyEvents evs).current_coherence,
        (applyEvents evs).worldview_coherence_history) =
      (applyEvents evs).insights.foldl
        (fun (p : ℚ × List (ℚ × ℚ)) i =>
          (clampUnit (p.1 + i.coherence_contribution * (5 / 100)),
            p.2 ++ [(i.timestamp, clampUnit (p.1 + i.coherence_contribution * (5 / 100)))]))
        ((1 : ℚ) / 2, []) := by
  have main : ∀ (l : List WEvent), (∀ e ∈ l, ∃ i, e = WEvent.insight i) →
      ∀ (m : Metrics),
      m.belief_updates = [] →
      m.belief_revision_count = 0 →
      m.evidence_integration_score = 1 / 2 →
      (m.current_coherence, m.worldview_coherence_history) =
        m.insights.foldl
          (fun (p : ℚ × List (ℚ × ℚ)) i =>
            (clampUnit (p.1 + i.coherence_contribution * (5 / 100)),
              p.2 ++ [(i.timestamp, clampUnit (p.1 + i.coherence_contribution * (5 / 100)))]))
          ((1 : ℚ) / 2, []) →
      (l.foldl applyEvent m).belief_updates = [] ∧
      (l.foldl applyEvent m).belief_revision_count = 0 ∧
      (l.foldl applyEvent m).evidence_integration_score = 1 / 2 ∧
      ((l.foldl applyEvent m).current_coherence,
          (l.foldl applyEvent m).worldview_coherence_history) =
        (l.foldl applyEvent m).insights.foldl
          (fun (p : ℚ × List (ℚ × ℚ)) i =>
            (clampUnit (p.1 + i.coherence_contribution * (5 / 100)),
              p.2 ++ [(i.timestamp, clampUnit (p.1 + i.coherence_contribution * (5 / 100)))]))
          ((1 : ℚ) / 2, []) := by
    intro l
    induction l with
    | nil =>
      intro _ m h1 h2 h3 h4
      exact ⟨h1, h2, h3, h4⟩
    | cons e t ih =>
      intro hall m h1 h2 h3 h4
      obtain ⟨i, rfl⟩ := hall e (by simp)
      simp only [List.foldl_cons]
      refine ih (fun x hx => hall x (List.mem_cons_of_mem _ hx)) _ ?_ ?_ ?_ ?_
      · unfold applyEvent add_insight
        dsimp only
        exact h1
      · unfold applyEvent add_insight
        dsimp only
        exact h2
      · unfold applyEvent add_insight
        dsimp only
        exact h3
      · unfold applyEvent add_insight
        dsimp only
        rw [List.foldl_append, List.foldl_cons, List.foldl_nil, ← h4]
  exact main evs h Metrics.init rfl rfl rfl rfl

end Wisdom

open Wisdom Interest in
/-- C5 counterexample: one belief update with confidence change 1 and
coherence impact 0; saving and loading the aggregator resets the
evidence-integration EMA from 0.55 back to its default 0.5, so the
composite differs (0.1475 after the round trip against 0.15 before),
refuting the claimed identity of the composite score. -/
theorem wisdom_roundtrip_changes_composite :
    calculate_composite_wisdom_score (roundTrip (applyEvents [plainUpdate 1 1 0])) ≠
      calculate_composite_wisdom_score (applyEvents [plainUpdate 1 1 0]) := by
  norm_num [roundTrip, rebuildDerivedMetrics, plainUpdate, applyEvents, applyEvent,
    add_belief_update, Metrics.init, clampUnit, calculate_composite_wisdom_score,
    calculate_depth_score, calculate_breadth_score, calculate_applicability_score,
    calculate_coherence_score, calculate_adaptability_score, lastN, pyMax,
    List.cons_ne_nil, abs_zero, abs_one]

open Wisdom Interest in
/-- C5 amended: saving and loading the interest tracker reproduces the
per-topic salience map exactly, and saving and loading the wisdom
aggregator reproduces the whole state (hence the composite score and
all five sub-scores) whenever no belief update has been recorded; with
belief updates present the composite can change, because the
evidence-integration score is neither persisted nor rebuilt and the
coherence history is replayed insights-first. -/
theorem roundtrip_preserves_salience_and_insight_only_scores
    (s : Interest.Tracker) (evs : List WEvent)
    (h : ∀ e ∈ evs, ∃ i, e = WEvent.insight i) :
    (interestRoundTrip s).salience_map = s.salience_map ∧
    roundTrip (applyEvents evs) = applyEvents evs := by
  constructor
  · rfl
  · obtain ⟨hupd, hcnt, hint, hcoh⟩ := insight_only_inv evs h
    have hconn := connections_inv evs
    unfold roundTrip rebuildDerivedMetrics
    dsimp only
    refine metrics_eq_of_fields _ _ ?_ ?_ ?_ ?_ ?_ ?_ ?_ ?_
    · rfl
    · rfl
    · rfl
    · dsimp only [Metrics.init]
      exact hconn.symm
    · dsimp only [Metrics.init]
      rw [hupd]
      simp only [List.foldl_nil]
      exact (congrArg Prod.snd hcoh).symm
    · dsimp only [Metrics.init]
      rw [hupd]
      simp only [List.foldl_nil]
      exact (congrArg Prod.fst hcoh).symm
    · dsimp only [Metrics.init]
      exact hcnt.symm
    · dsimp only [Metrics.init]
      exact hint.symm

open Wisdom Interest in
/-- C5 amended witness: the fresh tracker and a single-insight
sequence. -/
theorem roundtrip_preserves_witness :
    (interestRoundTrip Interest.Tracker.init).salience_map =
      Interest.Tracker.init.salience_map ∧
    roundTrip (applyEvents [plainInsight 1 (8 / 10) 1]) =
      applyEvents [plainInsight 1 (8 / 10) 1] :=
  roundtrip_preserves_salience_and_insight_only_scores Interest.Tracker.init
    [plainInsight 1 (8 / 10) 1]
    (by
      intro e he
      rw [List.mem_singleton] at he
      subst he
      exact ⟨_, rfl⟩)


end Ecco9